import Mathlib

/-!
Verification development for the symbol-bucket core of a tiled vector map
renderer (src/data/bucket/symbol_bucket.js).  JavaScript numbers are
modelled as rationals; machine-integer quantization performed by the
struct-array layer (an external collaborator) is not modelled, since no
property below depends on it.  Fallible or heterogeneous JS values are
modelled with Option and explicit sum types.
-/

/-- JavaScript Math.round: round half toward positive infinity. -/
def jsRound (q : ℚ) : ℤ := ⌊q + 1 / 2⌋

/-- A tile-local point (Point from @mapbox/point-geometry). -/
structure Pt where
  x : ℚ
  y : ℚ
deriving DecidableEq, Repr, Inhabited

/-- A label anchor: a point plus an optional index of the line segment it
sits on (undefined for labels that are not line-anchored). -/
structure Anchor where
  x : ℚ
  y : ℚ
  segment : Option ℕ
deriving DecidableEq, Repr

/-- The point carried by an anchor (Anchor extends Point in the source). -/
def Anchor.pt (a : Anchor) : Pt := ⟨a.x, a.y⟩

/-! ## Size Interpolator (getSizeData) -/

/-- The slice of a style layer that getSizeData consults for one size
property ({text,icon}-size): the feature/zoom-constant flags, the value
evaluated at a given zoom (getLayoutValue with globalProperties {zoom}),
and the declared stop zoom levels (getLayoutValueStopZoomLevels).  These
are external style-expression collaborators consumed read-only. -/
structure SizeStyleLayer where
  isFeatureConstant : Bool
  isZoomConstant : Bool
  getLayoutValue : ℚ → ℚ
  stopZoomLevels : List ℚ

/-- The four interpolation descriptors returned by getSizeData. -/
inductive SizeData where
  | source : SizeData
  | constant (layoutSize : ℚ) : SizeData
  | composite (coveringZoomRange : ℚ × ℚ) : SizeData
  | camera (layoutSize : ℚ) (coveringZoomRange : ℚ × ℚ)
      (coveringStopValues : ℚ × ℚ) : SizeData
deriving DecidableEq, Repr

/-- The first while loop of the covering-stop computation:
`while (lower < levels.length && levels[lower] <= tileZoom) lower++`
scans the prefix of stop levels that are at most tileZoom. -/
def lowerCount (tileZoom : ℚ) : List ℚ → ℕ
  | [] => 0
  | l :: rest => if l ≤ tileZoom then lowerCount tileZoom rest + 1 else 0

/-- The body of the second while loop, with the number of remaining
iterations made explicit (the loop advances by one index per iteration,
so levels.length - u iterations always suffice). -/
def upperScanFuel (levels : List ℚ) (tileZoom : ℚ) : ℕ → ℕ → ℕ
  | 0, u => u
  | fuel + 1, u =>
      if h : u < levels.length then
        if levels.get ⟨u, h⟩ < tileZoom + 1 then
          upperScanFuel levels tileZoom fuel (u + 1)
        else u
      else u

/-- The second while loop:
`while (upper < levels.length && levels[upper] < tileZoom + 1) upper++`
starting from index u. -/
def upperScan (levels : List ℚ) (tileZoom : ℚ) (u : ℕ) : ℕ :=
  upperScanFuel levels tileZoom (levels.length - u) u

/-- Covering stop indices: `lower = Math.max(0, lower - 1)` (natural
subtraction is exactly the clamp at 0) and
`upper = Math.min(levels.length - 1, upper)`. -/
def coveringZoomStopIndices (levels : List ℚ) (tileZoom : ℚ) : ℕ × ℕ :=
  let lower := lowerCount tileZoom levels - 1
  let upper := min (levels.length - 1) (upperScan levels tileZoom lower)
  (lower, upper)

/-- The coveringZoomRange value `[levels[lower], levels[upper]]`. -/
def coveringZoomRange (levels : List ℚ) (tileZoom : ℚ) : ℚ × ℚ :=
  let li := coveringZoomStopIndices levels tileZoom
  (levels.getD li.1 0, levels.getD li.2 0)

/-- getSizeData from the source; the sizeProperty argument is absorbed into
the SizeStyleLayer slice (the layer model is per size property). -/
def getSizeData (tileZoom : ℚ) (layer : SizeStyleLayer) : SizeData :=
  if layer.isZoomConstant && !layer.isFeatureConstant then
    .source
  else if layer.isZoomConstant && layer.isFeatureConstant then
    .constant (layer.getLayoutValue (tileZoom + 1))
  else
    let levels := layer.stopZoomLevels
    let range := coveringZoomRange levels tileZoom
    if !layer.isFeatureConstant then
      .composite range
    else
      .camera (layer.getLayoutValue (tileZoom + 1)) range
        (layer.getLayoutValue range.1, layer.getLayoutValue range.2)

/-! ## Buffer Set and Quad Packer (addSymbols) -/

/-- A segment: a (vertex-offset, index-offset, vertex-count,
primitive-count) window inside one Buffer Set. -/
structure Segment where
  vertexOffset : ℕ
  indexOffset : ℕ
  vertexLength : ℕ
  primitiveLength : ℕ
deriving DecidableEq, Repr, Inhabited

/-- The 16-bit vertex budget of one segment. -/
def MAX_VERTEX_ARRAY_LENGTH : ℕ := 65535

/-- Modelled from the spec: SegmentVector.prepareSegment lives in
src/data/segment.js, which is not under src/.  Per the spec a segment is
opened when the running vertex count would otherwise exceed the 16-bit
index budget, and reused otherwise; a fresh segment records the current
vertex-array and index-array lengths as its offsets. -/
def prepareSegment (numVertices vertexArrayLength indexArrayLength : ℕ)
    (segments : List Segment) : List Segment :=
  match segments.getLast? with
  | some seg =>
      if seg.vertexLength + numVertices > MAX_VERTEX_ARRAY_LENGTH then
        segments ++ [⟨vertexArrayLength, indexArrayLength, 0, 0⟩]
      else segments
  | none => segments ++ [⟨vertexArrayLength, indexArrayLength, 0, 0⟩]

/-- The segment returned by prepareSegment (the last one). -/
def currentSegment (segments : List Segment) : Segment :=
  (segments.getLast?).getD ⟨0, 0, 0, 0⟩

/-- Update the segment prepareSegment returned (counter increments mutate
the last segment in place in the source). -/
def updateLastSegment (f : Segment → Segment) : List Segment → List Segment
  | [] => []
  | [s] => [f s]
  | s :: rest => s :: updateLastSegment f rest

/-- One record of the a_pos_offset / a_data layout vertex array, as written
by addVertex: anchor position, corner offset in 1/64 units, texture
coordinates, and the optional size-vertex components (undefined when no
sizeVertex is given). -/
structure LayoutVertex where
  anchorX : ℚ
  anchorY : ℚ
  ox64 : ℤ
  oy64 : ℤ
  tx : ℚ
  ty : ℚ
  size0 : Option ℚ
  size1 : Option ℚ
deriving DecidableEq, Repr

/-- addVertex: emits one layout vertex record; the sub-pixel corner offset
is rounded to 1/64 units (fixed-point scale factor 64). -/
def addVertex (anchorX anchorY ox oy tx ty : ℚ) (sizeVertex : Option (ℚ × ℚ)) :
    LayoutVertex :=
  { anchorX := anchorX, anchorY := anchorY
    ox64 := jsRound (ox * 64), oy64 := jsRound (oy * 64)
    tx := tx, ty := ty
    size0 := sizeVertex.map Prod.fst, size1 := sizeVertex.map Prod.snd }

/-- Modelled from the spec: packUint8ToFloat (src/shaders/encode_attribute.js,
not under src/) packs two clamped 8-bit integers into a single float
attribute; per section 4.4 of the spec the contract is the pair of byte
values with defined scale factors, so the model keeps the packed word as
the integer 256 * a + b of the two clamped bytes. -/
def packUint8ToFloat (a b : ℚ) : ℤ :=
  256 * (max 0 (min 255 ⌊a⌋)) + max 0 (min 255 ⌊b⌋)

/-- One record of the a_projected_pos dynamic layout array. -/
structure DynamicVertex where
  x : ℚ
  y : ℚ
  angleAndZoom : ℤ
deriving DecidableEq, Repr

/-- addDynamicAttributes: appends four identical records carrying the
anchor position and the packed angle/zoom word.  The source normalizes
a radian angle by ((angle + 2*pi) % 2*pi) / (2*pi) * 255; since pi is not
rational, the model takes the angle as a fraction of a full turn and
applies the same wrap-and-scale (addSymbols passes angle 0, as in the
source, for which both agree exactly). -/
def addDynamicAttributes (arr : List DynamicVertex) (p : Pt)
    (angleTurns placementZoom : ℚ) : List DynamicVertex :=
  let angleAndZoom := packUint8ToFloat (Int.fract (angleTurns + 1) * 255)
    (placementZoom * 10)
  arr ++ [⟨p.x, p.y, angleAndZoom⟩, ⟨p.x, p.y, angleAndZoom⟩,
          ⟨p.x, p.y, angleAndZoom⟩, ⟨p.x, p.y, angleAndZoom⟩]

/-- The texture sub-rectangle of a shaped quad. -/
structure TexRect where
  x : ℚ
  y : ℚ
  w : ℚ
  h : ℚ
deriving DecidableEq, Repr

/-- A shaped glyph/icon quad (SymbolQuad from the shaping collaborator). -/
structure SymbolQuad where
  tl : Pt
  tr : Pt
  bl : Pt
  br : Pt
  tex : TexRect
  glyphOffset : ℚ × ℚ
deriving DecidableEq, Repr

/-- One PlacedSymbolArray entry. -/
structure PlacedSymbol where
  anchorX : ℚ
  anchorY : ℚ
  glyphStartIndex : ℕ
  numGlyphs : ℕ
  lineStartIndex : ℕ
  lineLength : ℕ
  segment : ℕ
  lowerSize : ℚ
  upperSize : ℚ
  lineOffsetX : ℚ
  lineOffsetY : ℚ
  placementZoom : ℚ
  writingMode : ℕ
  hidden : Bool
deriving DecidableEq, Repr

/-- The CPU-side arrays of one Buffer Set (SymbolBuffers), generic in the
layout vertex record type (text/icon versus collision-debug targets).
The index array stores one primitive per emplaceBack call (3 values for a
triangle, 2 for a line edge).  Opacity records keep the single value the
source writes; paintPopulateCalls logs the vertex lengths passed to
programConfigurations.populatePaintArrays (the paint-stream population
itself is an external collaborator). -/
structure SymbolBuffersState (V : Type) where
  layoutVertexArray : List V
  indexArray : List (List ℕ)
  dynamicLayoutVertexArray : List DynamicVertex
  opacityVertexArray : List ℚ
  collisionVertexArray : List (ℚ × ℚ)
  segments : List Segment
  paintPopulateCalls : List ℕ
deriving Repr

/-- An empty Buffer Set. -/
def emptyBuffers (V : Type) : SymbolBuffersState V :=
  ⟨[], [], [], [], [], [], []⟩

/-- The per-quad body of the addSymbols loop. -/
def addSymbolsQuadStep (zoom : ℚ) (labelAnchor : Anchor)
    (sizeVertex : Option (ℚ × ℚ))
    (st : SymbolBuffersState LayoutVertex × List ℚ) (symbol : SymbolQuad) :
    SymbolBuffersState LayoutVertex × List ℚ :=
  let arrays := st.1
  let glyphOffsetArray := st.2
  let segments := prepareSegment 4 arrays.layoutVertexArray.length
    arrays.indexArray.length arrays.segments
  let index := (currentSegment segments).vertexLength
  let y := symbol.glyphOffset.2
  let layoutVertexArray := arrays.layoutVertexArray ++
    [addVertex labelAnchor.x labelAnchor.y symbol.tl.x (y + symbol.tl.y)
        symbol.tex.x symbol.tex.y sizeVertex,
     addVertex labelAnchor.x labelAnchor.y symbol.tr.x (y + symbol.tr.y)
        (symbol.tex.x + symbol.tex.w) symbol.tex.y sizeVertex,
     addVertex labelAnchor.x labelAnchor.y symbol.bl.x (y + symbol.bl.y)
        symbol.tex.x (symbol.tex.y + symbol.tex.h) sizeVertex,
     addVertex labelAnchor.x labelAnchor.y symbol.br.x (y + symbol.br.y)
        (symbol.tex.x + symbol.tex.w) (symbol.tex.y + symbol.tex.h) sizeVertex]
  let dynamicLayoutVertexArray := addDynamicAttributes
    arrays.dynamicLayoutVertexArray labelAnchor.pt 0 zoom
  let opacityVertexArray := arrays.opacityVertexArray ++ [0, 0, 0, 0]
  let indexArray := arrays.indexArray ++
    [[index, index + 1, index + 2], [index + 1, index + 2, index + 3]]
  let segments := updateLastSegment
    (fun s => { s with vertexLength := s.vertexLength + 4,
                       primitiveLength := s.primitiveLength + 2 }) segments
  ({ arrays with
      layoutVertexArray := layoutVertexArray
      indexArray := indexArray
      dynamicLayoutVertexArray := dynamicLayoutVertexArray
      opacityVertexArray := opacityVertexArray
      segments := segments },
   glyphOffsetArray ++ [symbol.glyphOffset.1])

/-- addSymbols: packs the quads of one label into a Buffer Set, appends the
per-quad glyph x-offsets to the shared GlyphOffsetArray and records one
placement-summary entry; placementZoom is the bucket zoom.  Returns the
updated Buffer Set, GlyphOffsetArray and placed-symbol array.  The unused
alongLine flag and the feature (consumed only by the external
paint-configuration population) are kept for signature parity. -/
def addSymbols (zoom : ℚ) (arrays : SymbolBuffersState LayoutVertex)
    (glyphOffsetArray : List ℚ) (quads : List SymbolQuad)
    (sizeVertex : Option (ℚ × ℚ)) (lineOffset : ℚ × ℚ) (alongLine : Bool)
    (writingMode : ℕ) (labelAnchor : Anchor) (lineStartIndex lineLength : ℕ)
    (placedSymbolArray : List PlacedSymbol) :
    SymbolBuffersState LayoutVertex × List ℚ × List PlacedSymbol :=
  let placementZoom := zoom
  let glyphOffsetArrayStart := glyphOffsetArray.length
  let r := quads.foldl (addSymbolsQuadStep zoom labelAnchor sizeVertex)
    (arrays, glyphOffsetArray)
  let newPlaced : PlacedSymbol :=
    { anchorX := labelAnchor.x, anchorY := labelAnchor.y
      glyphStartIndex := glyphOffsetArrayStart
      numGlyphs := r.2.length - glyphOffsetArrayStart
      lineStartIndex := lineStartIndex, lineLength := lineLength
      segment := labelAnchor.segment.getD 0
      lowerSize := (sizeVertex.map Prod.fst).getD 0
      upperSize := (sizeVertex.map Prod.snd).getD 0
      lineOffsetX := lineOffset.1, lineOffsetY := lineOffset.2
      placementZoom := placementZoom, writingMode := writingMode
      hidden := false }
  let arrays2 := { r.1 with paintPopulateCalls :=
    r.1.paintPopulateCalls ++ [r.1.layoutVertexArray.length] }
  (arrays2, r.2, placedSymbolArray ++ [newPlaced])

/-! ## Debug Geometry Emitter and collision-record flattening -/

/-- One record of the collision-debug layout vertex array
(a_pos, a_anchor_pos, a_extrude). -/
structure CollisionDebugVertex where
  posX : ℚ
  posY : ℚ
  anchorX : ℚ
  anchorY : ℚ
  extrudeX : ℤ
  extrudeY : ℤ
deriving DecidableEq, Repr

/-- The slice of a SymbolInstance the debug emitter reads: collision-box
index ranges for text and icon, and the label anchor. -/
structure SymbolInstance where
  textBoxStartIndex : ℕ
  textBoxEndIndex : ℕ
  iconBoxStartIndex : ℕ
  iconBoxEndIndex : ℕ
  anchor : Anchor
deriving Repr

/-- One record of the shared collision-box array (external append-only
store; this core only reads ranges by index).  anchorPoint in the source
is a computed accessor building a Point from anchorPointX/anchorPointY. -/
structure CollisionBox where
  x1 : ℚ
  y1 : ℚ
  x2 : ℚ
  y2 : ℚ
  anchorPointX : ℚ
  anchorPointY : ℚ
  radius : ℚ
  distanceToAnchor : ℚ
deriving DecidableEq, Repr, Inhabited

/-- The anchorPoint accessor of a collision-box record. -/
def CollisionBox.anchorPoint (b : CollisionBox) : Pt :=
  ⟨b.anchorPointX, b.anchorPointY⟩

/-- The private per-corner helper: appends one (0,0) collision-vertex
record and one layout record with the rounded extrusion vector. -/
def addCollisionDebugVertex
    (layoutVertexArray : List CollisionDebugVertex)
    (collisionVertexArray : List (ℚ × ℚ)) (point : Pt) (anchor : Pt)
    (extrude : Pt) : List CollisionDebugVertex × List (ℚ × ℚ) :=
  (layoutVertexArray ++
    [⟨point.x, point.y, anchor.x, anchor.y,
      jsRound extrude.x, jsRound extrude.y⟩],
   collisionVertexArray ++ [(0, 0)])

/-- addCollisionDebugVertices: emits the four corners of one collision box
or circle bounding box, then two triangles for a circle or a four-edge
line loop for a rectangular box. -/
def addCollisionDebugVertices (x1 y1 x2 y2 : ℚ)
    (arrays : SymbolBuffersState CollisionDebugVertex) (boxAnchorPoint : Pt)
    (symbolInstance : SymbolInstance) (isCircle : Bool) :
    SymbolBuffersState CollisionDebugVertex :=
  let segments := prepareSegment 4 arrays.layoutVertexArray.length
    arrays.indexArray.length arrays.segments
  let index := (currentSegment segments).vertexLength
  let anchor := symbolInstance.anchor.pt
  let s1 := addCollisionDebugVertex arrays.layoutVertexArray
    arrays.collisionVertexArray boxAnchorPoint anchor ⟨x1, y1⟩
  let s2 := addCollisionDebugVertex s1.1 s1.2 boxAnchorPoint anchor ⟨x2, y1⟩
  let s3 := addCollisionDebugVertex s2.1 s2.2 boxAnchorPoint anchor ⟨x2, y2⟩
  let s4 := addCollisionDebugVertex s3.1 s3.2 boxAnchorPoint anchor ⟨x1, y2⟩
  let segments := updateLastSegment
    (fun s => { s with vertexLength := s.vertexLength + 4 }) segments
  if isCircle then
    { arrays with
        layoutVertexArray := s4.1
        collisionVertexArray := s4.2
        indexArray := arrays.indexArray ++
          [[index, index + 1, index + 2], [index, index + 2, index + 3]]
        segments := updateLastSegment
          (fun s => { s with primitiveLength := s.primitiveLength + 2 })
          segments }
  else
    { arrays with
        layoutVertexArray := s4.1
        collisionVertexArray := s4.2
        indexArray := arrays.indexArray ++
          [[index, index + 1], [index + 1, index + 2],
           [index + 2, index + 3], [index + 3, index]]
        segments := updateLastSegment
          (fun s => { s with primitiveLength := s.primitiveLength + 4 })
          segments }

/-- generateCollisionDebugBuffers: for every symbol instance, walks the
text and icon collision-feature box ranges and emits each referenced
record into the circle target when its radius is positive, and into the
box target otherwise.  (The source first stores the derived
text/iconCollisionFeature views on the instance; the model reads the
ranges directly.) -/
def generateCollisionDebugBuffers (collisionBoxArray : List CollisionBox)
    (symbolInstances : List SymbolInstance)
    (state : SymbolBuffersState CollisionDebugVertex ×
             SymbolBuffersState CollisionDebugVertex) :
    SymbolBuffersState CollisionDebugVertex ×
      SymbolBuffersState CollisionDebugVertex :=
  symbolInstances.foldl (fun st symbolInstance =>
    [(symbolInstance.textBoxStartIndex, symbolInstance.textBoxEndIndex),
     (symbolInstance.iconBoxStartIndex, symbolInstance.iconBoxEndIndex)].foldl
      (fun st fr =>
        (List.range' fr.1 (fr.2 - fr.1)).foldl (fun st b =>
          let box := collisionBoxArray.getD b default
          let isCircle := box.radius > 0
          if isCircle then
            (st.1, addCollisionDebugVertices box.x1 box.y1 box.x2 box.y2 st.2
              box.anchorPoint symbolInstance true)
          else
            (addCollisionDebugVertices box.x1 box.y1 box.x2 box.y2 st.1
              box.anchorPoint symbolInstance false, st.2)) st) st)
    state

/-- The body of deserializeCollisionBoxes: scans the index range and
aborts (none) at the first record whose radius is nonzero, mirroring the
early `return []`. -/
def deserializeBoxesGo (collisionBoxArray : List CollisionBox) :
    List ℕ → Option (List ℚ)
  | [] => some []
  | k :: rest =>
      let box := collisionBoxArray.getD k default
      if box.radius ≠ 0 then none
      else (deserializeBoxesGo collisionBoxArray rest).map
        (fun tail => [box.x1, box.y1, box.x2, box.y2,
          box.anchorPointX, box.anchorPointY] ++ tail)

/-- deserializeCollisionBoxes: flattens records [startIndex, endIndex)
into 6 values per record, or returns the empty list if any scanned record
has a nonzero radius (it is actually an array of circles). -/
def deserializeCollisionBoxes (collisionBoxArray : List CollisionBox)
    (startIndex endIndex : ℕ) : List ℚ :=
  (deserializeBoxesGo collisionBoxArray
    (List.range' startIndex (endIndex - startIndex))).getD []

/-- A value pushed by deserializeCollisionCircles: four numbers and a
final boolean marker per record. -/
inductive CollisionValue where
  | num : ℚ → CollisionValue
  | flag : Bool → CollisionValue
deriving DecidableEq, Repr

/-- The body of deserializeCollisionCircles: aborts (none) at the first
record whose radius is zero, mirroring the early `return []`. -/
def deserializeCirclesGo (collisionBoxArray : List CollisionBox) :
    List ℕ → Option (List CollisionValue)
  | [] => some []
  | k :: rest =>
      let circle := collisionBoxArray.getD k default
      if circle.radius = 0 then none
      else (deserializeCirclesGo collisionBoxArray rest).map
        (fun tail => [CollisionValue.num circle.anchorPointX,
          CollisionValue.num circle.anchorPointY,
          CollisionValue.num circle.radius,
          CollisionValue.num circle.distanceToAnchor,
          CollisionValue.flag false] ++ tail)

/-- deserializeCollisionCircles: flattens records [startIndex, endIndex)
into 5 values per record (anchor x, anchor y, radius, distance to anchor,
and the used-at-render-time marker false), or returns the empty list if
any scanned record has a zero radius (it is actually an array of boxes). -/
def deserializeCollisionCircles (collisionBoxArray : List CollisionBox)
    (startIndex endIndex : ℕ) : List CollisionValue :=
  (deserializeCirclesGo collisionBoxArray
    (List.range' startIndex (endIndex - startIndex))).getD []

/-! ## Line Distance Indexer (addToLineVertexArray) -/

/-- One LineVertexArray record. -/
structure LineVertex where
  x : ℚ
  y : ℚ
  tileUnitDistanceFromAnchor : ℚ
deriving DecidableEq, Repr, Inhabited

/-- Cumulative distances along a vertex sequence: the head receives the
running sum, and the sum then grows by the distance between the next two
vertices (both accumulation loops of the source have this shape; the next
vertex is the first argument of the distance call, as in the source).
The Euclidean distance Math.sqrt((dx)^2 + (dy)^2) is irrational, so the
development is parametric in the distance function d; nonnegativity of d
is assumed exactly where the source relies on it. -/
def cumDists (d : Pt → Pt → ℚ) : ℚ → List Pt → List ℚ
  | acc, [] => []
  | acc, [_] => [acc]
  | acc, p :: q :: rest => acc :: cumDists d (acc + d q p) (q :: rest)

/-- The distances recorded for the whole line: indices at or before the
anchor segment carry the backward accumulation (computed from the segment
head down to vertex 0), indices after it the forward accumulation. -/
def lineDistances (d : Pt → Pt → ℚ) (anchor : Anchor) (line : List Pt)
    (seg : ℕ) : List ℚ :=
  let fwd := cumDists d (d anchor.pt (line.getD (seg + 1) default))
    (line.drop (seg + 1))
  let bwd := (cumDists d (d anchor.pt (line.getD seg default))
    ((line.take (seg + 1)).reverse)).reverse
  bwd ++ fwd

/-- addToLineVertexArray: appends one record per line vertex (coordinates
plus distance from the anchor) when the anchor carries a segment index,
and appends nothing otherwise; returns the new array with the start index
and length of the appended range. -/
def addToLineVertexArray (d : Pt → Pt → ℚ) (lineVertexArray : List LineVertex)
    (anchor : Anchor) (line : List Pt) : List LineVertex × ℕ × ℕ :=
  let lineStartIndex := lineVertexArray.length
  match anchor.segment with
  | none => (lineVertexArray, lineStartIndex, 0)
  | some seg =>
      let entries := (line.zip (lineDistances d anchor line seg)).map
        (fun pd => LineVertex.mk pd.1.x pd.1.y pd.2)
      (lineVertexArray ++ entries, lineStartIndex, entries.length)

/-! ## Buffer Set GPU lifecycle (upload / destroy) -/

/-- Modelled from the spec: the GPU-resident resource behind one buffer
or resource family.  The leaf destroy guards of gl/vertex_buffer.js,
gl/index_buffer.js and the VAO teardown reached through
programConfigurations.destroy and segments.destroy are not under src/;
per section 4.6 of the spec GPU resources are released exactly once, so a
live handle is deleted on the first destroy and a dead handle is left
untouched.  deleteCount counts actual GL delete operations. -/
structure GlResource where
  live : Bool
  deleteCount : ℕ
deriving DecidableEq, Repr

/-- Modelled from the spec: the guarded leaf destroy (release once). -/
def GlResource.destroyRes (b : GlResource) : GlResource :=
  if b.live then { live := false, deleteCount := b.deleteCount + 1 } else b

/-- The GPU-side state of one SymbolBuffers: the buffer fields are
undefined (none) until upload runs; programConfigurations and segments
always exist but own GPU resources only after upload. -/
structure SymbolBuffersGl where
  layoutVertexBuffer : Option GlResource
  indexBuffer : Option GlResource
  programConfigurations : GlResource
  segments : GlResource
  dynamicLayoutVertexBuffer : Option GlResource
  opacityVertexBuffer : Option GlResource
  collisionVertexBuffer : Option GlResource
deriving DecidableEq, Repr

/-- A Buffer Set that was never uploaded: no GPU resources anywhere. -/
def SymbolBuffersGl.built : SymbolBuffersGl :=
  ⟨none, none, ⟨false, 0⟩, ⟨false, 0⟩, none, none, none⟩

/-- upload: creates one GPU buffer per present array; the dynamic,
opacity and collision buffers exist only when the program interface
declares the corresponding attribute family. -/
def SymbolBuffersGl.upload (hasDynamic hasOpacity hasCollision : Bool) :
    SymbolBuffersGl :=
  { layoutVertexBuffer := some ⟨true, 0⟩
    indexBuffer := some ⟨true, 0⟩
    programConfigurations := ⟨true, 0⟩
    segments := ⟨true, 0⟩
    dynamicLayoutVertexBuffer := if hasDynamic then some ⟨true, 0⟩ else none
    opacityVertexBuffer := if hasOpacity then some ⟨true, 0⟩ else none
    collisionVertexBuffer := if hasCollision then some ⟨true, 0⟩ else none }

/-- SymbolBuffers.destroy: an early return when layoutVertexBuffer was
never assigned (upload never ran); otherwise destroys the layout and
index buffers, the program configurations and segments, and each of the
optional buffers that exists.  The fields themselves are not cleared, as
in the source; repeated calls rely on the guarded leaf destroys. -/
def SymbolBuffersGl.destroy (s : SymbolBuffersGl) : SymbolBuffersGl :=
  match s.layoutVertexBuffer with
  | none => s
  | some lvb =>
      { layoutVertexBuffer := some lvb.destroyRes
        indexBuffer := s.indexBuffer.map GlResource.destroyRes
        programConfigurations := s.programConfigurations.destroyRes
        segments := s.segments.destroyRes
        dynamicLayoutVertexBuffer :=
          s.dynamicLayoutVertexBuffer.map GlResource.destroyRes
        opacityVertexBuffer := s.opacityVertexBuffer.map GlResource.destroyRes
        collisionVertexBuffer :=
          s.collisionVertexBuffer.map GlResource.destroyRes }

/-- Total GL delete operations ever performed by a Buffer Set. -/
def SymbolBuffersGl.totalDeletes (s : SymbolBuffersGl) : ℕ :=
  ((s.layoutVertexBuffer.map GlResource.deleteCount).getD 0) +
  ((s.indexBuffer.map GlResource.deleteCount).getD 0) +
  s.programConfigurations.deleteCount + s.segments.deleteCount +
  ((s.dynamicLayoutVertexBuffer.map GlResource.deleteCount).getD 0) +
  ((s.opacityVertexBuffer.map GlResource.deleteCount).getD 0) +
  ((s.collisionVertexBuffer.map GlResource.deleteCount).getD 0)

/-- The GPU-side state of a whole SymbolBucket: its four Buffer Sets. -/
structure SymbolBucketGl where
  text : SymbolBuffersGl
  icon : SymbolBuffersGl
  collisionBox : SymbolBuffersGl
  collisionCircle : SymbolBuffersGl
deriving DecidableEq, Repr

/-- SymbolBucket.destroy: destroys the four Buffer Sets. -/
def SymbolBucketGl.destroy (b : SymbolBucketGl) : SymbolBucketGl :=
  ⟨b.text.destroy, b.icon.destroy, b.collisionBox.destroy,
   b.collisionCircle.destroy⟩

/-! ## Feature Collector (populate) -/

/-- A decoded tile feature as populate sees it (vector-tile decoding is an
external collaborator; the decoded point sequences are stored directly). -/
structure TileFeature where
  properties : List (String × String)
  id : Option ℕ
  featureType : ℕ
  geometry : List (List Pt)

/-- Modelled from the spec: loadGeometry (src/data/load_geometry.js, not
under src/) decodes a feature's tile-relative geometry; the model stores
the decoded point sequences on the feature directly. -/
def loadGeometry (feature : TileFeature) : List (List Pt) :=
  feature.geometry

/-- Modelled from the spec: the vector-tile feature type table of the
external @mapbox/vector-tile package, mapping the numeric feature type to
its name. -/
def vectorTileFeatureTypes : List String :=
  ["Unknown", "Point", "LineString", "Polygon"]

/-- One feature of the input list: {feature, index, sourceLayerIndex}. -/
structure IndexedFeature where
  feature : TileFeature
  index : ℕ
  sourceLayerIndex : ℕ

/-- One SymbolFeature produced by populate. -/
structure SymbolFeature where
  text : Option String
  icon : Option String
  index : ℕ
  sourceLayerIndex : ℕ
  geometry : List (List Pt)
  properties : List (String × String)
  featureType : String
  id : Option ℕ

/-- One string-valued layout property as the style layer exposes it:
whether it is feature-constant, the raw constant layout value (whose
JavaScript truthiness the hasText/hasIcon checks consult; when the
property is not feature-constant the raw value is a function object and
the check short-circuits before reading it), and evaluation at this
bucket's zoom (getLayoutValue with globalProperties {zoom}). -/
structure LayoutStringProperty where
  featureConstant : Bool
  constantValue : String
  evaluate : TileFeature → String

/-- The slice of a style layer populate consults. -/
structure StyleLayerModel where
  filter : TileFeature → Bool
  textField : LayoutStringProperty
  iconImage : LayoutStringProperty
  textFont : Option String
  textRotationAlignmentMap : Bool
  symbolPlacementLine : Bool

/-- The external text collaborators populate calls: token resolution,
layer text transforms, vertical-writing-mode detection and the vertical
punctuation substitution table.  Strings are treated as sequences of
characters; charCodeAt is modelled as the character codepoint (the
UTF-16 code-unit view of JavaScript strings coincides with it on the
basic multilingual plane). -/
structure TextCollaborators where
  resolveTokens : List (String × String) → String → String
  transformText : String → TileFeature → String
  allowsVerticalWritingMode : String → Bool
  verticalPunctuationLookup : Char → Option Char

/-- JavaScript truthiness of an optional string: undefined and the empty
string are falsy. -/
def jsTruthy : Option String → Bool
  | none => false
  | some s => !s.isEmpty

/-- The hasText check:
(!isLayoutValueFeatureConstant(text-field) || layout[text-field]) && textFont. -/
def hasTextB (layer : StyleLayerModel) : Bool :=
  (!layer.textField.featureConstant || !layer.textField.constantValue.isEmpty)
    && layer.textFont.isSome

/-- The hasIcon check:
!isLayoutValueFeatureConstant(icon-image) || layout[icon-image]. -/
def hasIconB (layer : StyleLayerModel) : Bool :=
  !layer.iconImage.featureConstant || !layer.iconImage.constantValue.isEmpty

/-- The glyph-dependency collection loop over one retained text value:
records each character's codepoint, and, when the layer permits
line-following placement and the text supports vertical writing, also the
vertical punctuation substitute where a mapping exists. -/
def collectGlyphs (C : TextCollaborators) (textAlongLine : Bool)
    (text : String) (stack : Finset ℕ) : Finset ℕ :=
  let allowsVertical := C.allowsVerticalWritingMode text
  text.toList.foldl (fun st c =>
    let st := insert c.toNat st
    if textAlongLine && allowsVertical then
      match C.verticalPunctuationLookup c with
      | some verticalChar => insert verticalChar.toNat st
      | none => st
    else st) stack

/-- Modelled from the spec: mergeLines (src/symbol/mergelines.js, not
under src/) merges adjacent same-text line-geometry features into single
longer lines, concatenating geometry and keeping the leading feature's
fields. -/
def mergeLines : List SymbolFeature → List SymbolFeature
  | [] => []
  | [f] => [f]
  | f :: g :: rest =>
      if f.text = g.text && f.featureType == "LineString"
          && g.featureType == "LineString" then
        mergeLines ({ f with geometry := f.geometry ++ g.geometry } :: rest)
      else
        f :: mergeLines (g :: rest)
termination_by l => l.length
decreasing_by all_goals simp_arith

/-- The per-feature text evaluation: getLayoutValue at the bucket zoom,
token resolution for feature-constant values, then the text transform;
undefined when the layer has no text. -/
def evalText (C : TextCollaborators) (layer : StyleLayerModel)
    (hasText : Bool) (feature : TileFeature) : Option String :=
  if hasText then
    let t := layer.textField.evaluate feature
    let t2 := if layer.textField.featureConstant then
      C.resolveTokens feature.properties t else t
    some (C.transformText t2 feature)
  else none

/-- The per-feature icon evaluation: getLayoutValue at the bucket zoom
and token resolution for feature-constant values; undefined when the
layer has no icon. -/
def evalIcon (C : TextCollaborators) (layer : StyleLayerModel)
    (hasIcon : Bool) (feature : TileFeature) : Option String :=
  if hasIcon then
    let i := layer.iconImage.evaluate feature
    some (if layer.iconImage.featureConstant then
      C.resolveTokens feature.properties i else i)
  else none

/-- The per-feature body of the populate loop, threading the accumulated
feature list, icon dependency set and the glyph set of the active font
stack. -/
def populateStep (C : TextCollaborators) (layer : StyleLayerModel)
    (hasText hasIcon : Bool)
    (acc : List SymbolFeature × Finset String × Finset ℕ)
    (ixf : IndexedFeature) :
    List SymbolFeature × Finset String × Finset ℕ :=
  if !layer.filter ixf.feature then acc
  else
    let text : Option String := evalText C layer hasText ixf.feature
    let icon : Option String := evalIcon C layer hasIcon ixf.feature
    if !jsTruthy text && !jsTruthy icon then acc
    else
      let symbolFeature : SymbolFeature :=
        { text := text, icon := icon, index := ixf.index
          sourceLayerIndex := ixf.sourceLayerIndex
          geometry := loadGeometry ixf.feature
          properties := ixf.feature.properties
          featureType := vectorTileFeatureTypes.getD
            ixf.feature.featureType "Unknown"
          id := ixf.feature.id }
      let feats := acc.1 ++ [symbolFeature]
      let icons := if jsTruthy icon then insert (icon.getD "") acc.2.1
        else acc.2.1
      let stack := if jsTruthy text then
          collectGlyphs C
            (layer.textRotationAlignmentMap && layer.symbolPlacementLine)
            (text.getD "") acc.2.2
        else acc.2.2
      (feats, icons, stack)

/-- The result of populate: the retained feature list and the two
dependency sets (glyph codepoints per font stack key, icon names). -/
structure PopulateResult where
  features : List SymbolFeature
  iconDependencies : Finset String
  glyphDependencies : Option String → Finset ℕ

/-- populate: evaluates text/icon presence, scans the features, collects
dependencies, and merges adjacent same-text lines for line placement.
The dependency sets are threaded functionally; the stacks entry of the
active font stack (the layout text-font key) is created or extended. -/
def populate (C : TextCollaborators) (layer : StyleLayerModel)
    (features : List IndexedFeature) (iconDependencies : Finset String)
    (glyphDependencies : Option String → Finset ℕ) : PopulateResult :=
  let hasText := hasTextB layer
  let hasIcon := hasIconB layer
  if !hasText && !hasIcon then
    { features := [], iconDependencies := iconDependencies
      glyphDependencies := glyphDependencies }
  else
    let r := features.foldl (populateStep C layer hasText hasIcon)
      ([], iconDependencies, glyphDependencies layer.textFont)
    let feats := if layer.symbolPlacementLine then mergeLines r.1 else r.1
    { features := feats
      iconDependencies := r.2.1
      glyphDependencies :=
        Function.update glyphDependencies layer.textFont r.2.2 }

/-! ## Bucket-level sequences of addToLineVertexArray / addSymbols calls -/

/-- The arguments of one addSymbols call inside a call sequence.  The
line range comes from an earlier addToLineVertexArray call, identified by
its position in the sequence of line-range results, matching the symbol
layout flow in which the range returned for a label's line is passed to
the addSymbols calls of that label. -/
structure AddSymsArgs where
  target : Bool
  quads : List SymbolQuad
  sizeVertex : Option (ℚ × ℚ)
  lineOffset : ℚ × ℚ
  alongLine : Bool
  writingMode : ℕ
  labelAnchor : Anchor
  lineRef : ℕ

/-- One call on the bucket. -/
inductive BucketOp where
  | addLine (anchor : Anchor) (line : List Pt) : BucketOp
  | addSyms (args : AddSymsArgs) : BucketOp

/-- The bucket state touched by such call sequences: the two triangle
Buffer Sets with their placed-symbol arrays, and the shared append-only
GlyphOffsetArray and LineVertexArray.  lineRangeResults records the
(start, length) pairs addToLineVertexArray returned so far. -/
structure BucketArraysState where
  textBuffers : SymbolBuffersState LayoutVertex
  iconBuffers : SymbolBuffersState LayoutVertex
  glyphOffsetArray : List ℚ
  lineVertexArray : List LineVertex
  placedGlyphArray : List PlacedSymbol
  placedIconArray : List PlacedSymbol
  lineRangeResults : List (ℕ × ℕ)

/-- The freshly created bucket arrays (createArrays). -/
def initialBucketArrays : BucketArraysState :=
  ⟨emptyBuffers _, emptyBuffers _, [], [], [], [], []⟩

/-- Execute one call on the bucket state. -/
def runBucketOp (d : Pt → Pt → ℚ) (zoom : ℚ) (st : BucketArraysState) :
    BucketOp → BucketArraysState
  | .addLine anchor line =>
      let r := addToLineVertexArray d st.lineVertexArray anchor line
      { st with lineVertexArray := r.1
                lineRangeResults := st.lineRangeResults ++ [r.2] }
  | .addSyms a =>
      let lr := st.lineRangeResults.getD a.lineRef (0, 0)
      if a.target then
        let r := addSymbols zoom st.textBuffers st.glyphOffsetArray a.quads
          a.sizeVertex a.lineOffset a.alongLine a.writingMode a.labelAnchor
          lr.1 lr.2 st.placedGlyphArray
        { st with textBuffers := r.1, glyphOffsetArray := r.2.1
                  placedGlyphArray := r.2.2 }
      else
        let r := addSymbols zoom st.iconBuffers st.glyphOffsetArray a.quads
          a.sizeVertex a.lineOffset a.alongLine a.writingMode a.labelAnchor
          lr.1 lr.2 st.placedIconArray
        { st with iconBuffers := r.1, glyphOffsetArray := r.2.1
                  placedIconArray := r.2.2 }

/-- Run a call sequence on the fresh bucket. -/
def runBucketOps (d : Pt → Pt → ℚ) (zoom : ℚ) (ops : List BucketOp) :
    BucketArraysState :=
  ops.foldl (runBucketOp d zoom) initialBucketArrays

/-- All placed-symbol entries of the bucket (text and icon targets). -/
def allPlaced (st : BucketArraysState) : List PlacedSymbol :=
  st.placedGlyphArray ++ st.placedIconArray

/-- Membership of an array index in a (start, length) range view. -/
def inRange (r : ℕ × ℕ) (i : ℕ) : Prop := r.1 ≤ i ∧ i < r.1 + r.2

/-- Two range views are either exactly equal or share no index. -/
def disjointOrEqual (r1 r2 : ℕ × ℕ) : Prop :=
  r1 = r2 ∨ ∀ i, ¬(inRange r1 i ∧ inRange r2 i)

/-- The glyph-offset range view of a placed entry. -/
def glyphRange (e : PlacedSymbol) : ℕ × ℕ := (e.glyphStartIndex, e.numGlyphs)

/-- The line-vertex range view of a placed entry. -/
def lineRange (e : PlacedSymbol) : ℕ × ℕ := (e.lineStartIndex, e.lineLength)

/-! ## Lemmas about the covering-stop scans -/

theorem lowerCount_le_length (z : ℚ) (levels : List ℚ) :
    lowerCount z levels ≤ levels.length := by
  induction levels with
  | nil => simp [lowerCount]
  | cons l rest ih =>
      simp only [lowerCount, List.length_cons]
      split
      · omega
      · omega

theorem lowerCount_pred_le (z : ℚ) (levels : List ℚ)
    (h : 0 < lowerCount z levels) :
    levels.getD (lowerCount z levels - 1) 0 ≤ z := by
  induction levels with
  | nil => simp [lowerCount] at h
  | cons l rest ih =>
      rw [lowerCount] at h ⊢
      by_cases hl : l ≤ z
      · rw [if_pos hl] at h ⊢
        rcases Nat.eq_zero_or_pos (lowerCount z rest) with h0 | hpos
        · simpa [h0] using hl
        · have hrw : lowerCount z rest + 1 - 1 = (lowerCount z rest - 1) + 1 := by
            omega
          rw [hrw, List.getD_cons_succ]
          exact ih hpos
      · rw [if_neg hl] at h
        exact absurd h (by omega)

theorem upperScanFuel_stop (levels : List ℚ) (z : ℚ) :
    ∀ fuel u, levels.length - u ≤ fuel →
      upperScanFuel levels z fuel u < levels.length →
      z + 1 ≤ levels.getD (upperScanFuel levels z fuel u) 0 := by
  intro fuel
  induction fuel with
  | zero =>
      intro u hm h
      simp only [upperScanFuel] at h
      omega
  | succ n ih =>
      intro u hm h
      by_cases hu : u < levels.length
      · by_cases hlt : levels.get ⟨u, hu⟩ < z + 1
        · simp only [upperScanFuel, dif_pos hu, if_pos hlt] at h ⊢
          exact ih (u + 1) (by omega) h
        · simp only [upperScanFuel, dif_pos hu, if_neg hlt] at h ⊢
          rw [List.getD_eq_getElem levels 0 hu]
          exact not_lt.mp hlt
      · simp only [upperScanFuel, dif_neg hu] at h
        exact absurd h hu

theorem upperScan_stop (levels : List ℚ) (z : ℚ) (u : ℕ)
    (h : upperScan levels z u < levels.length) :
    z + 1 ≤ levels.getD (upperScan levels z u) 0 :=
  upperScanFuel_stop levels z (levels.length - u) u (le_refl _) h

theorem upperScanFuel_le_of_stop (levels : List ℚ) (z : ℚ) :
    ∀ fuel u, levels.length - u ≤ fuel →
      ∀ i, u ≤ i → i < levels.length → z + 1 ≤ levels.getD i 0 →
      upperScanFuel levels z fuel u ≤ i := by
  intro fuel
  induction fuel with
  | zero =>
      intro u hm i hui hi _
      simp only [upperScanFuel]
      omega
  | succ n ih =>
      intro u hm i hui hi hz
      by_cases hu : u < levels.length
      · by_cases hlt : levels.get ⟨u, hu⟩ < z + 1
        · simp only [upperScanFuel, dif_pos hu, if_pos hlt]
          have hne : u ≠ i := by
            intro he
            subst he
            rw [List.getD_eq_getElem levels 0 hu] at hz
            exact absurd hlt (not_lt.mpr hz)
          exact ih (u + 1) (by omega) i (by omega) hi hz
        · simp only [upperScanFuel, dif_pos hu, if_neg hlt]
          exact hui
      · simp only [upperScanFuel, dif_neg hu]
        omega

theorem upperScan_le_of_stop (levels : List ℚ) (z : ℚ) (u i : ℕ)
    (hui : u ≤ i) (hi : i < levels.length)
    (hz : z + 1 ≤ levels.getD i 0) :
    upperScan levels z u ≤ i :=
  upperScanFuel_le_of_stop levels z (levels.length - u) u (le_refl _) i hui hi hz

/-- The concrete zoom-dependent size layer exhibiting a tile zoom outside
the declared stop range. -/
def cexSizeLayer : SizeStyleLayer :=
  { isFeatureConstant := false, isZoomConstant := false
    getLayoutValue := fun _ => 0, stopZoomLevels := [3] }

/-- C1 counterexample: for the single declared stop 3 and tile zoom 20
(outside the declared stop range), getSizeData returns the clamped
covering range [3, 3], and the claimed bracketing
lower <= zoom + 1 < upper + 1 fails: 20 + 1 < 3 + 1 is false. -/
theorem C1_counterexample :
    getSizeData 20 cexSizeLayer = SizeData.composite (3, 3) ∧
    ¬((3 : ℚ) ≤ 20 + 1 ∧ (20 : ℚ) + 1 < 3 + 1) := by
  constructor
  · norm_num [getSizeData, cexSizeLayer, coveringZoomRange,
      coveringZoomStopIndices, lowerCount, upperScan, upperScanFuel]
  · intro h
    have := h.2
    norm_num at this

/-- C1 (amended): for a zoom-dependent size property with a nonempty
declared stop list, the coveringZoomRange computed by getSizeData
consists of declared stop levels, and whenever tileZoom + 1 lies within
the declared stop span (first stop <= tileZoom + 1 <= last stop) the
range brackets: lower <= tileZoom + 1 < upper + 1.  When tileZoom + 1
falls outside the declared stops, clamping to array bounds yields the
nearest stop pair and the bracketing can fail (see the counterexample). -/
theorem C1_coveringZoomRange_brackets (tileZoom : ℚ) (layer : SizeStyleLayer)
    (hzoom : layer.isZoomConstant = false)
    (hne : layer.stopZoomLevels ≠ [])
    (hlow : layer.stopZoomLevels.getD 0 0 ≤ tileZoom + 1)
    (hhigh : tileZoom + 1 ≤
      layer.stopZoomLevels.getD (layer.stopZoomLevels.length - 1) 0) :
    (getSizeData tileZoom layer =
        SizeData.composite (coveringZoomRange layer.stopZoomLevels tileZoom) ∨
     getSizeData tileZoom layer =
        SizeData.camera (layer.getLayoutValue (tileZoom + 1))
          (coveringZoomRange layer.stopZoomLevels tileZoom)
          (layer.getLayoutValue
            (coveringZoomRange layer.stopZoomLevels tileZoom).1,
           layer.getLayoutValue
            (coveringZoomRange layer.stopZoomLevels tileZoom).2)) ∧
    (coveringZoomRange layer.stopZoomLevels tileZoom).1 ∈
      layer.stopZoomLevels ∧
    (coveringZoomRange layer.stopZoomLevels tileZoom).2 ∈
      layer.stopZoomLevels ∧
    (coveringZoomRange layer.stopZoomLevels tileZoom).1 ≤ tileZoom + 1 ∧
    tileZoom + 1 < (coveringZoomRange layer.stopZoomLevels tileZoom).2 + 1 := by
  have hlen : 0 < layer.stopZoomLevels.length := List.length_pos.mpr hne
  refine ⟨?_, ?_, ?_, ?_, ?_⟩
  · cases hfc : layer.isFeatureConstant
    · left
      simp [getSizeData, hzoom, hfc]
    · right
      simp [getSizeData, hzoom, hfc]
  · have hl : lowerCount tileZoom layer.stopZoomLevels - 1 <
        layer.stopZoomLevels.length := by
      have := lowerCount_le_length tileZoom layer.stopZoomLevels
      omega
    rw [show (coveringZoomRange layer.stopZoomLevels tileZoom).1 =
        layer.stopZoomLevels.getD
          (lowerCount tileZoom layer.stopZoomLevels - 1) 0 from rfl]
    rw [List.getD_eq_getElem layer.stopZoomLevels 0 hl]
    exact List.getElem_mem hl
  · have hl : lowerCount tileZoom layer.stopZoomLevels - 1 <
        layer.stopZoomLevels.length := by
      have := lowerCount_le_length tileZoom layer.stopZoomLevels
      omega
    have hu0 : upperScan layer.stopZoomLevels tileZoom
        (lowerCount tileZoom layer.stopZoomLevels - 1) ≤
        layer.stopZoomLevels.length - 1 :=
      upperScan_le_of_stop layer.stopZoomLevels tileZoom _
        (layer.stopZoomLevels.length - 1) (by omega) (by omega) hhigh
    have hu1 : upperScan layer.stopZoomLevels tileZoom
        (lowerCount tileZoom layer.stopZoomLevels - 1) <
        layer.stopZoomLevels.length := by omega
    rw [show (coveringZoomRange layer.stopZoomLevels tileZoom).2 =
        layer.stopZoomLevels.getD
          (min (layer.stopZoomLevels.length - 1)
            (upperScan layer.stopZoomLevels tileZoom
              (lowerCount tileZoom layer.stopZoomLevels - 1))) 0 from rfl]
    rw [min_eq_right hu0]
    rw [List.getD_eq_getElem layer.stopZoomLevels 0 hu1]
    exact List.getElem_mem hu1
  · rw [show (coveringZoomRange layer.stopZoomLevels tileZoom).1 =
        layer.stopZoomLevels.getD
          (lowerCount tileZoom layer.stopZoomLevels - 1) 0 from rfl]
    rcases Nat.eq_zero_or_pos (lowerCount tileZoom layer.stopZoomLevels)
      with h0 | hpos
    · rw [h0]
      exact hlow
    · have := lowerCount_pred_le tileZoom layer.stopZoomLevels hpos
      linarith
  · have hl : lowerCount tileZoom layer.stopZoomLevels - 1 <
        layer.stopZoomLevels.length := by
      have := lowerCount_le_length tileZoom layer.stopZoomLevels
      omega
    have hu0 : upperScan layer.stopZoomLevels tileZoom
        (lowerCount tileZoom layer.stopZoomLevels - 1) ≤
        layer.stopZoomLevels.length - 1 :=
      upperScan_le_of_stop layer.stopZoomLevels tileZoom _
        (layer.stopZoomLevels.length - 1) (by omega) (by omega) hhigh
    have hu1 : upperScan layer.stopZoomLevels tileZoom
        (lowerCount tileZoom layer.stopZoomLevels - 1) <
        layer.stopZoomLevels.length := by omega
    have hstop := upperScan_stop layer.stopZoomLevels tileZoom _ hu1
    rw [show (coveringZoomRange layer.stopZoomLevels tileZoom).2 =
        layer.stopZoomLevels.getD
          (min (layer.stopZoomLevels.length - 1)
            (upperScan layer.stopZoomLevels tileZoom
              (lowerCount tileZoom layer.stopZoomLevels - 1))) 0 from rfl]
    rw [min_eq_right hu0]
    linarith

/-- The concrete zoom-dependent size layer used to witness the amended
covering-range theorem. -/
def witSizeLayer : SizeStyleLayer :=
  { isFeatureConstant := false, isZoomConstant := false
    getLayoutValue := fun z => z, stopZoomLevels := [2, 5, 10] }

/-- C1 witness: the amended theorem applied at stops [2, 5, 10] and tile
zoom 3. -/
theorem C1_coveringZoomRange_brackets_witness :
    (getSizeData 3 witSizeLayer =
        SizeData.composite (coveringZoomRange witSizeLayer.stopZoomLevels 3) ∨
     getSizeData 3 witSizeLayer =
        SizeData.camera (witSizeLayer.getLayoutValue (3 + 1))
          (coveringZoomRange witSizeLayer.stopZoomLevels 3)
          (witSizeLayer.getLayoutValue
            (coveringZoomRange witSizeLayer.stopZoomLevels 3).1,
           witSizeLayer.getLayoutValue
            (coveringZoomRange witSizeLayer.stopZoomLevels 3).2)) ∧
    (coveringZoomRange witSizeLayer.stopZoomLevels 3).1 ∈
      witSizeLayer.stopZoomLevels ∧
    (coveringZoomRange witSizeLayer.stopZoomLevels 3).2 ∈
      witSizeLayer.stopZoomLevels ∧
    (coveringZoomRange witSizeLayer.stopZoomLevels 3).1 ≤ 3 + 1 ∧
    (3 : ℚ) + 1 < (coveringZoomRange witSizeLayer.stopZoomLevels 3).2 + 1 :=
  C1_coveringZoomRange_brackets 3 witSizeLayer rfl (by decide)
    (by norm_num [witSizeLayer]) (by norm_num [witSizeLayer])

/-! ## Lemmas about the addSymbols loop -/

/-- The shape of the triangle indices addSymbols appends: per quad, the
two triangles (i, i+1, i+2) and (i+1, i+2, i+3) relative to a segment
vertex base i. -/
inductive TriPairs : List (List ℕ) → Prop where
  | nil : TriPairs []
  | cons (i : ℕ) {rest : List (List ℕ)} (h : TriPairs rest) :
      TriPairs ([i, i + 1, i + 2] :: [i + 1, i + 2, i + 3] :: rest)

theorem addSymbolsQuadStep_layout_length (zoom : ℚ) (labelAnchor : Anchor)
    (sizeVertex : Option (ℚ × ℚ))
    (st : SymbolBuffersState LayoutVertex × List ℚ) (q : SymbolQuad) :
    (addSymbolsQuadStep zoom labelAnchor sizeVertex st q).1.layoutVertexArray.length
      = st.1.layoutVertexArray.length + 4 := by
  simp [addSymbolsQuadStep]

theorem addSymbolsQuadStep_glyphs (zoom : ℚ) (labelAnchor : Anchor)
    (sizeVertex : Option (ℚ × ℚ))
    (st : SymbolBuffersState LayoutVertex × List ℚ) (q : SymbolQuad) :
    (addSymbolsQuadStep zoom labelAnchor sizeVertex st q).2
      = st.2 ++ [q.glyphOffset.1] := rfl

theorem addSymbolsQuadStep_index (zoom : ℚ) (labelAnchor : Anchor)
    (sizeVertex : Option (ℚ × ℚ))
    (st : SymbolBuffersState LayoutVertex × List ℚ) (q : SymbolQuad) :
    ∃ i, (addSymbolsQuadStep zoom labelAnchor sizeVertex st q).1.indexArray
      = st.1.indexArray ++ [[i, i + 1, i + 2], [i + 1, i + 2, i + 3]] :=
  ⟨_, rfl⟩

theorem addSymbols_loop_spec (zoom : ℚ) (labelAnchor : Anchor)
    (sizeVertex : Option (ℚ × ℚ)) (quads : List SymbolQuad) :
    ∀ arrays glyphs,
      ((quads.foldl (addSymbolsQuadStep zoom labelAnchor sizeVertex)
          (arrays, glyphs)).1.layoutVertexArray.length
        = arrays.layoutVertexArray.length + 4 * quads.length) ∧
      ((quads.foldl (addSymbolsQuadStep zoom labelAnchor sizeVertex)
          (arrays, glyphs)).2.length = glyphs.length + quads.length) ∧
      ∃ suffix,
        (quads.foldl (addSymbolsQuadStep zoom labelAnchor sizeVertex)
          (arrays, glyphs)).1.indexArray = arrays.indexArray ++ suffix ∧
        suffix.length = 2 * quads.length ∧
        (suffix.map List.length).sum = 6 * quads.length ∧
        TriPairs suffix := by
  induction quads with
  | nil =>
      intro arrays glyphs
      exact ⟨by simp, by simp, [], by simp, by simp, by simp, TriPairs.nil⟩
  | cons q qs ih =>
      intro arrays glyphs
      obtain ⟨i, hi⟩ := addSymbolsQuadStep_index zoom labelAnchor sizeVertex
        (arrays, glyphs) q
      obtain ⟨h1, h2, suffix, hs1, hs2, hs3, hs4⟩ :=
        ih (addSymbolsQuadStep zoom labelAnchor sizeVertex (arrays, glyphs) q).1
          (addSymbolsQuadStep zoom labelAnchor sizeVertex (arrays, glyphs) q).2
      simp only [List.foldl_cons] at *
      refine ⟨?_, ?_, [i, i + 1, i + 2] :: [i + 1, i + 2, i + 3] :: suffix,
        ?_, ?_, ?_, TriPairs.cons i hs4⟩
      · rw [h1, addSymbolsQuadStep_layout_length]
        simp only [List.length_cons]
        ring
      · rw [h2, addSymbolsQuadStep_glyphs]
        simp only [List.length_append, List.length_cons, List.length_nil]
        ring
      · rw [hs1, hi]
        simp
      · simp only [List.length_cons]
        rw [hs2]
        ring
      · simp only [List.map_cons, List.sum_cons, List.length_cons,
          List.length_nil]
        rw [hs3]
        ring

theorem addSymbols_placed (zoom : ℚ) (arrays : SymbolBuffersState LayoutVertex)
    (glyphOffsetArray : List ℚ) (quads : List SymbolQuad)
    (sizeVertex : Option (ℚ × ℚ)) (lineOffset : ℚ × ℚ) (alongLine : Bool)
    (writingMode : ℕ) (labelAnchor : Anchor) (lineStartIndex lineLength : ℕ)
    (placedSymbolArray : List PlacedSymbol) :
    (addSymbols zoom arrays glyphOffsetArray quads sizeVertex lineOffset
        alongLine writingMode labelAnchor lineStartIndex lineLength
        placedSymbolArray).2.2
      = placedSymbolArray ++
        [{ anchorX := labelAnchor.x, anchorY := labelAnchor.y
           glyphStartIndex := glyphOffsetArray.length
           numGlyphs := quads.length
           lineStartIndex := lineStartIndex, lineLength := lineLength
           segment := labelAnchor.segment.getD 0
           lowerSize := (sizeVertex.map Prod.fst).getD 0
           upperSize := (sizeVertex.map Prod.snd).getD 0
           lineOffsetX := lineOffset.1, lineOffsetY := lineOffset.2
           placementZoom := zoom, writingMode := writingMode
           hidden := false }] := by
  have h := (addSymbols_loop_spec zoom labelAnchor sizeVertex quads
    arrays glyphOffsetArray).2.1
  simp only [addSymbols, h]
  simp

theorem addSymbols_glyphOffsetArray_length (zoom : ℚ)
    (arrays : SymbolBuffersState LayoutVertex) (glyphOffsetArray : List ℚ)
    (quads : List SymbolQuad) (sizeVertex : Option (ℚ × ℚ))
    (lineOffset : ℚ × ℚ) (alongLine : Bool) (writingMode : ℕ)
    (labelAnchor : Anchor) (lineStartIndex lineLength : ℕ)
    (placedSymbolArray : List PlacedSymbol) :
    (addSymbols zoom arrays glyphOffsetArray quads sizeVertex lineOffset
        alongLine writingMode labelAnchor lineStartIndex lineLength
        placedSymbolArray).2.1.length
      = glyphOffsetArray.length + quads.length := by
  have h := (addSymbols_loop_spec zoom labelAnchor sizeVertex quads
    arrays glyphOffsetArray).2.1
  simpa [addSymbols] using h

/-- C2: addSymbols with k quads grows the target layout vertex array by
exactly 4k records and the triangle index array by exactly 2k triangles
(6k index values), each quad contributing the triangles (i, i+1, i+2) and
(i+1, i+2, i+3) relative to its segment vertex base; the debug variant
addCollisionDebugVertices appends 4 vertices and 4 line-edge primitives
per rectangular box (not 6 triangle indices) and 4 vertices and 2
triangles per circle. -/
theorem C2_quad_packing (zoom : ℚ) (arrays : SymbolBuffersState LayoutVertex)
    (glyphOffsetArray : List ℚ) (quads : List SymbolQuad)
    (sizeVertex : Option (ℚ × ℚ)) (lineOffset : ℚ × ℚ) (alongLine : Bool)
    (writingMode : ℕ) (labelAnchor : Anchor) (lineStartIndex lineLength : ℕ)
    (placedSymbolArray : List PlacedSymbol) :
    ((addSymbols zoom arrays glyphOffsetArray quads sizeVertex lineOffset
        alongLine writingMode labelAnchor lineStartIndex lineLength
        placedSymbolArray).1.layoutVertexArray.length
      = arrays.layoutVertexArray.length + 4 * quads.length) ∧
    ((addSymbols zoom arrays glyphOffsetArray quads sizeVertex lineOffset
        alongLine writingMode labelAnchor lineStartIndex lineLength
        placedSymbolArray).1.indexArray.length
      = arrays.indexArray.length + 2 * quads.length) ∧
    (((addSymbols zoom arrays glyphOffsetArray quads sizeVertex lineOffset
        alongLine writingMode labelAnchor lineStartIndex lineLength
        placedSymbolArray).1.indexArray.map List.length).sum
      = (arrays.indexArray.map List.length).sum + 6 * quads.length) ∧
    (∃ suffix,
      (addSymbols zoom arrays glyphOffsetArray quads sizeVertex lineOffset
        alongLine writingMode labelAnchor lineStartIndex lineLength
        placedSymbolArray).1.indexArray = arrays.indexArray ++ suffix ∧
      TriPairs suffix) ∧
    (∀ (x1 y1 x2 y2 : ℚ) (dbg : SymbolBuffersState CollisionDebugVertex)
        (p : Pt) (inst : SymbolInstance),
      ((addCollisionDebugVertices x1 y1 x2 y2 dbg p inst
          false).layoutVertexArray.length = dbg.layoutVertexArray.length + 4 ∧
        ∃ i, (addCollisionDebugVertices x1 y1 x2 y2 dbg p inst
          false).indexArray = dbg.indexArray ++
            [[i, i + 1], [i + 1, i + 2], [i + 2, i + 3], [i + 3, i]]) ∧
      ((addCollisionDebugVertices x1 y1 x2 y2 dbg p inst
          true).layoutVertexArray.length = dbg.layoutVertexArray.length + 4 ∧
        ∃ i, (addCollisionDebugVertices x1 y1 x2 y2 dbg p inst
          true).indexArray = dbg.indexArray ++
            [[i, i + 1, i + 2], [i, i + 2, i + 3]])) := by
  obtain ⟨h1, h2, suffix, hs1, hs2, hs3, hs4⟩ :=
    addSymbols_loop_spec zoom labelAnchor sizeVertex quads arrays
      glyphOffsetArray
  refine ⟨?_, ?_, ?_, ⟨suffix, ?_, hs4⟩, ?_⟩
  · simpa [addSymbols] using h1
  · simp only [addSymbols]
    rw [hs1]
    simp [hs2]
  · simp only [addSymbols]
    rw [hs1]
    simp [hs3]
  · simpa [addSymbols] using hs1
  · intro x1 y1 x2 y2 dbg p inst
    refine ⟨⟨?_, ⟨_, rfl⟩⟩, ⟨?_, ⟨_, rfl⟩⟩⟩
    · simp [addCollisionDebugVertices, addCollisionDebugVertex]
    · simp [addCollisionDebugVertices, addCollisionDebugVertex]

/-- C3: each addSymbols call, including one with an empty quad list,
appends exactly one placed-symbol entry whose fields are the anchor
coordinates, the glyph-offset range starting at the prior
GlyphOffsetArray length with one offset per processed quad, the passed
line range, the anchor segment id, the size-vertex components, the line
offset, the bucket zoom as placement zoom, the writing mode, and
hidden = false. -/
theorem C3_placed_symbol_entry (zoom : ℚ)
    (arrays : SymbolBuffersState LayoutVertex) (glyphOffsetArray : List ℚ)
    (quads : List SymbolQuad) (sizeVertex : Option (ℚ × ℚ))
    (lineOffset : ℚ × ℚ) (alongLine : Bool) (writingMode : ℕ)
    (labelAnchor : Anchor) (lineStartIndex lineLength : ℕ)
    (placedSymbolArray : List PlacedSymbol) :
    (addSymbols zoom arrays glyphOffsetArray quads sizeVertex lineOffset
        alongLine writingMode labelAnchor lineStartIndex lineLength
        placedSymbolArray).2.2
      = placedSymbolArray ++
        [{ anchorX := labelAnchor.x, anchorY := labelAnchor.y
           glyphStartIndex := glyphOffsetArray.length
           numGlyphs := quads.length
           lineStartIndex := lineStartIndex, lineLength := lineLength
           segment := labelAnchor.segment.getD 0
           lowerSize := (sizeVertex.map Prod.fst).getD 0
           upperSize := (sizeVertex.map Prod.snd).getD 0
           lineOffsetX := lineOffset.1, lineOffsetY := lineOffset.2
           placementZoom := zoom, writingMode := writingMode
           hidden := false }] :=
  addSymbols_placed zoom arrays glyphOffsetArray quads sizeVertex lineOffset
    alongLine writingMode labelAnchor lineStartIndex lineLength
    placedSymbolArray

/-! ## Lemmas about the line distance indexer -/

theorem cumDists_length (d : Pt → Pt → ℚ) :
    ∀ (acc : ℚ) (l : List Pt), (cumDists d acc l).length = l.length := by
  intro acc l
  induction l generalizing acc with
  | nil => simp [cumDists]
  | cons p rest ih =>
      cases rest with
      | nil => simp [cumDists]
      | cons q rest2 =>
          simp only [cumDists, List.length_cons]
          rw [ih]
          simp

theorem cumDists_mono (d : Pt → Pt → ℚ) (hd : ∀ p q, 0 ≤ d p q) :
    ∀ (l : List Pt) (acc : ℚ) (j : ℕ), j + 1 < l.length →
      (cumDists d acc l).getD j 0 ≤ (cumDists d acc l).getD (j + 1) 0 := by
  intro l
  induction l with
  | nil => intro acc j h; simp at h
  | cons p rest ih =>
      intro acc j h
      cases rest with
      | nil => simp at h
      | cons q rest2 =>
          simp only [cumDists]
          cases j with
          | zero =>
              simp only [List.getD_cons_zero, List.getD_cons_succ]
              have hhead : (cumDists d (acc + d q p) (q :: rest2)).getD 0 0
                  = acc + d q p := by
                cases rest2 <;> simp [cumDists]
              rw [hhead]
              have := hd q p
              linarith
          | succ j2 =>
              simp only [List.getD_cons_succ]
              exact ih (acc + d q p) j2 (by simpa using h)

theorem lineDistances_length (d : Pt → Pt → ℚ) (anchor : Anchor)
    (line : List Pt) (seg : ℕ) :
    (lineDistances d anchor line seg).length = line.length := by
  simp only [lineDistances, List.length_append, List.length_reverse,
    cumDists_length, List.length_take, List.length_drop]
  omega

theorem addToLineVertexArray_none (d : Pt → Pt → ℚ)
    (lineVertexArray : List LineVertex) (anchor : Anchor) (line : List Pt)
    (h : anchor.segment = none) :
    addToLineVertexArray d lineVertexArray anchor line
      = (lineVertexArray, lineVertexArray.length, 0) := by
  simp [addToLineVertexArray, h]

theorem addToLineVertexArray_some (d : Pt → Pt → ℚ)
    (lineVertexArray : List LineVertex) (anchor : Anchor) (line : List Pt)
    (seg : ℕ) (h : anchor.segment = some seg) :
    addToLineVertexArray d lineVertexArray anchor line
      = (lineVertexArray ++
          (line.zip (lineDistances d anchor line seg)).map
            (fun pd => LineVertex.mk pd.1.x pd.1.y pd.2),
         lineVertexArray.length,
         ((line.zip (lineDistances d anchor line seg)).map
            (fun pd => LineVertex.mk pd.1.x pd.1.y pd.2)).length) := by
  simp [addToLineVertexArray, h, lineDistances]

theorem addToLineVertexArray_some_len (d : Pt → Pt → ℚ)
    (lineVertexArray : List LineVertex) (anchor : Anchor) (line : List Pt)
    (seg : ℕ) (h : anchor.segment = some seg) :
    (addToLineVertexArray d lineVertexArray anchor line).2.2
      = line.length := by
  rw [addToLineVertexArray_some d lineVertexArray anchor line seg h]
  simp only [List.length_map, List.length_zip, lineDistances_length]
  omega

theorem addToLineVertexArray_start (d : Pt → Pt → ℚ)
    (lineVertexArray : List LineVertex) (anchor : Anchor) (line : List Pt) :
    (addToLineVertexArray d lineVertexArray anchor line).2.1
      = lineVertexArray.length := by
  cases h : anchor.segment with
  | none => rw [addToLineVertexArray_none d lineVertexArray anchor line h]
  | some seg =>
      rw [addToLineVertexArray_some d lineVertexArray anchor line seg h]

theorem addToLineVertexArray_total_len (d : Pt → Pt → ℚ)
    (lineVertexArray : List LineVertex) (anchor : Anchor) (line : List Pt) :
    (addToLineVertexArray d lineVertexArray anchor line).1.length
      = lineVertexArray.length
        + (addToLineVertexArray d lineVertexArray anchor line).2.2 := by
  cases h : anchor.segment with
  | none =>
      rw [addToLineVertexArray_none d lineVertexArray anchor line h]
      simp
  | some seg =>
      rw [addToLineVertexArray_some d lineVertexArray anchor line seg h]
      simp

theorem lineDistances_fwd_mono (d : Pt → Pt → ℚ) (hd : ∀ p q, 0 ≤ d p q)
    (anchor : Anchor) (line : List Pt) (seg : ℕ) (i : ℕ)
    (h1 : seg + 1 ≤ i) (h2 : i + 1 < line.length) :
    (lineDistances d anchor line seg).getD i 0
      ≤ (lineDistances d anchor line seg).getD (i + 1) 0 := by
  have hbl : ((cumDists d (d anchor.pt (line.getD seg default))
      ((line.take (seg + 1)).reverse)).reverse).length = seg + 1 := by
    simp only [List.length_reverse, cumDists_length, List.length_take]
    omega
  rw [lineDistances]
  rw [List.getD_append_right _ _ _ _ (by omega), hbl]
  rw [List.getD_append_right _ _ _ _ (by omega), hbl]
  have hstep : i + 1 - (seg + 1) = (i - (seg + 1)) + 1 := by omega
  rw [hstep]
  exact cumDists_mono d hd (line.drop (seg + 1)) _ (i - (seg + 1))
    (by simp only [List.length_drop]; omega)

theorem lineDistances_bwd_mono (d : Pt → Pt → ℚ) (hd : ∀ p q, 0 ≤ d p q)
    (anchor : Anchor) (line : List Pt) (seg : ℕ) (i : ℕ)
    (h1 : i + 1 ≤ seg) (h2 : i + 1 < line.length) :
    (lineDistances d anchor line seg).getD (i + 1) 0
      ≤ (lineDistances d anchor line seg).getD i 0 := by
  have hcl : (cumDists d (d anchor.pt (line.getD seg default))
      ((line.take (seg + 1)).reverse)).length = min (seg + 1) line.length := by
    simp only [cumDists_length, List.length_reverse, List.length_take]
  have hbl : ((cumDists d (d anchor.pt (line.getD seg default))
      ((line.take (seg + 1)).reverse)).reverse).length
      = min (seg + 1) line.length := by
    simp only [List.length_reverse, hcl]
  have hi1 : i + 1 < min (seg + 1) line.length := by omega
  rw [lineDistances]
  rw [List.getD_append _ _ _ _ (by omega), List.getD_append _ _ _ _ (by omega)]
  set cum := cumDists d (d anchor.pt (line.getD seg default))
    ((line.take (seg + 1)).reverse) with hcum
  have hgi : ∀ j, (hj : j < min (seg + 1) line.length) →
      cum.reverse.getD j 0 = cum.getD (min (seg + 1) line.length - 1 - j) 0 := by
    intro j hj
    have hj1 : j < cum.reverse.length := by rw [hbl]; exact hj
    have hj2 : min (seg + 1) line.length - 1 - j < cum.length := by
      rw [hcl]; omega
    rw [List.getD_eq_getElem _ _ hj1, List.getD_eq_getElem _ _ hj2]
    rw [List.getElem_reverse]
    congr 1
    rw [hcl]
  rw [hgi (i + 1) hi1, hgi i (by omega)]
  have hrw : min (seg + 1) line.length - 1 - i
      = (min (seg + 1) line.length - 1 - (i + 1)) + 1 := by omega
  rw [hrw]
  exact cumDists_mono d hd _ _ _
    (by simp only [List.length_reverse, List.length_take]; omega)

/-- C4: addToLineVertexArray with a segment-carrying anchor appends one
entry per vertex of the line (returned lineLength equals the line's
vertex count), the recorded distances are the lineDistances values, and
those are monotonically non-decreasing away from the anchor in both
directions (forward for indices after the anchor segment, backward for
indices at or before it); with no segment index nothing is appended and
the returned length is zero. -/
theorem C4_line_distance_indexing (d : Pt → Pt → ℚ) (hd : ∀ p q, 0 ≤ d p q)
    (lineVertexArray : List LineVertex) (anchor : Anchor) (line : List Pt) :
    (anchor.segment = none →
      addToLineVertexArray d lineVertexArray anchor line
        = (lineVertexArray, lineVertexArray.length, 0)) ∧
    (∀ seg, anchor.segment = some seg →
      (addToLineVertexArray d lineVertexArray anchor line).2.2
        = line.length ∧
      ((addToLineVertexArray d lineVertexArray anchor line).1.drop
          lineVertexArray.length).map
        (fun v => v.tileUnitDistanceFromAnchor)
        = lineDistances d anchor line seg ∧
      (∀ i, seg + 1 ≤ i → i + 1 < line.length →
        (lineDistances d anchor line seg).getD i 0
          ≤ (lineDistances d anchor line seg).getD (i + 1) 0) ∧
      (∀ i, i + 1 ≤ seg → i + 1 < line.length →
        (lineDistances d anchor line seg).getD (i + 1) 0
          ≤ (lineDistances d anchor line seg).getD i 0)) := by
  constructor
  · intro h
    exact addToLineVertexArray_none d lineVertexArray anchor line h
  · intro seg h
    refine ⟨addToLineVertexArray_some_len d lineVertexArray anchor line seg h,
      ?_, ?_, ?_⟩
    · rw [addToLineVertexArray_some d lineVertexArray anchor line seg h]
      simp only [List.drop_left, List.map_map]
      have hcomp : ((fun v : LineVertex => v.tileUnitDistanceFromAnchor) ∘
          (fun pd : Pt × ℚ => LineVertex.mk pd.1.x pd.1.y pd.2))
          = Prod.snd := rfl
      rw [hcomp]
      exact List.map_snd_zip _ _
        (le_of_eq (lineDistances_length d anchor line seg))
    · intro i h1 h2
      exact lineDistances_fwd_mono d hd anchor line seg i h1 h2
    · intro i h1 h2
      exact lineDistances_bwd_mono d hd anchor line seg i h1 h2

/-- The taxicab distance used to instantiate the distance parameter in
witnesses (the source's Euclidean distance is irrational-valued). -/
def witDist (p q : Pt) : ℚ := |q.x - p.x| + |q.y - p.y|

/-- A concrete line-anchored anchor for the C4 witness. -/
def witAnchor : Anchor := ⟨1, 0, some 1⟩

/-- A concrete line for the C4 witness. -/
def witLine : List Pt := [⟨0, 0⟩, ⟨1, 0⟩, ⟨3, 0⟩, ⟨6, 0⟩]

/-- C4 witness: the theorem applied to a concrete nonnegative distance,
anchor and line. -/
theorem C4_line_distance_indexing_witness :
    (witAnchor.segment = none →
      addToLineVertexArray witDist [] witAnchor witLine
        = ([], ([] : List LineVertex).length, 0)) ∧
    (∀ seg, witAnchor.segment = some seg →
      (addToLineVertexArray witDist [] witAnchor witLine).2.2
        = witLine.length ∧
      ((addToLineVertexArray witDist [] witAnchor witLine).1.drop
          ([] : List LineVertex).length).map
        (fun v => v.tileUnitDistanceFromAnchor)
        = lineDistances witDist witAnchor witLine seg ∧
      (∀ i, seg + 1 ≤ i → i + 1 < witLine.length →
        (lineDistances witDist witAnchor witLine seg).getD i 0
          ≤ (lineDistances witDist witAnchor witLine seg).getD (i + 1) 0) ∧
      (∀ i, i + 1 ≤ seg → i + 1 < witLine.length →
        (lineDistances witDist witAnchor witLine seg).getD (i + 1) 0
          ≤ (lineDistances witDist witAnchor witLine seg).getD i 0)) :=
  C4_line_distance_indexing witDist
    (by
      intro p q
      unfold witDist
      positivity)
    [] witAnchor witLine

/-! ## Lemmas about destroy -/

theorem GlResource.destroyRes_idem (x : GlResource) :
    x.destroyRes.destroyRes = x.destroyRes := by
  cases x with
  | mk live n => cases live <;> simp [GlResource.destroyRes]

theorem GlResource.destroyRes_comp :
    GlResource.destroyRes ∘ GlResource.destroyRes = GlResource.destroyRes :=
  funext GlResource.destroyRes_idem

theorem SymbolBuffersGl.destroy_destroy (s : SymbolBuffersGl) :
    s.destroy.destroy = s.destroy := by
  cases hl : s.layoutVertexBuffer with
  | none => simp [SymbolBuffersGl.destroy, hl]
  | some lvb =>
      simp [SymbolBuffersGl.destroy, hl, Option.map_map,
        GlResource.destroyRes_idem, GlResource.destroyRes_comp]

/-- C5: destroy is idempotent and safe on a never-uploaded Buffer Set
(and bucket): a second destroy in a row changes nothing, destroy of a set
whose layout buffer was never assigned is the identity, and after an
upload the first destroy performs exactly one GL delete per present
resource while the second performs none. -/
theorem C5_destroy_idempotent (s : SymbolBuffersGl) (b : SymbolBucketGl)
    (hasDynamic hasOpacity hasCollision : Bool) :
    (s.destroy.destroy = s.destroy) ∧
    (s.layoutVertexBuffer = none → s.destroy = s) ∧
    (b.destroy.destroy = b.destroy) ∧
    ((SymbolBuffersGl.upload hasDynamic hasOpacity
        hasCollision).destroy.totalDeletes
      = 4 + (if hasDynamic then 1 else 0) + (if hasOpacity then 1 else 0)
        + (if hasCollision then 1 else 0)) ∧
    ((SymbolBuffersGl.upload hasDynamic hasOpacity
        hasCollision).destroy.destroy.totalDeletes
      = (SymbolBuffersGl.upload hasDynamic hasOpacity
        hasCollision).destroy.totalDeletes) := by
  refine ⟨SymbolBuffersGl.destroy_destroy s, ?_, ?_, ?_, ?_⟩
  · intro h
    simp [SymbolBuffersGl.destroy, h]
  · cases b with
    | mk t i cb cc =>
        simp [SymbolBucketGl.destroy, SymbolBuffersGl.destroy_destroy]
  · cases hasDynamic <;> cases hasOpacity <;> cases hasCollision <;> rfl
  · rw [SymbolBuffersGl.destroy_destroy]

/-- C5 witness: destroy on a never-uploaded Buffer Set is the identity,
and a double destroy after a concrete upload equals a single destroy. -/
theorem C5_destroy_idempotent_witness :
    SymbolBuffersGl.built.destroy = SymbolBuffersGl.built ∧
    (SymbolBuffersGl.upload true true false).destroy.destroy
      = (SymbolBuffersGl.upload true true false).destroy ∧
    (SymbolBuffersGl.upload true true false).destroy.totalDeletes = 6 :=
  ⟨(C5_destroy_idempotent SymbolBuffersGl.built
      ⟨SymbolBuffersGl.built, SymbolBuffersGl.built, SymbolBuffersGl.built,
       SymbolBuffersGl.built⟩ true true false).2.1 rfl,
   (C5_destroy_idempotent (SymbolBuffersGl.upload true true false)
      ⟨SymbolBuffersGl.built, SymbolBuffersGl.built, SymbolBuffersGl.built,
       SymbolBuffersGl.built⟩ true true false).1,
   (C5_destroy_idempotent (SymbolBuffersGl.upload true true false)
      ⟨SymbolBuffersGl.built, SymbolBuffersGl.built, SymbolBuffersGl.built,
       SymbolBuffersGl.built⟩ true true false).2.2.2.1⟩

/-! ## Lemmas about range views of placed entries -/

/-- Successive ranges claimed from an append-only array are stacked:
each one ends no later than the next one starts. -/
def rangesStacked (rs : List (ℕ × ℕ)) : Prop :=
  List.Pairwise (fun r1 r2 => r1.1 + r1.2 ≤ r2.1) rs

theorem disjointOrEqual_symm : Symmetric disjointOrEqual := by
  intro a b hab
  rcases hab with he | hd
  · exact Or.inl he.symm
  · right
    intro i hi
    exact hd i ⟨hi.2, hi.1⟩

theorem disjointOrEqual_of_zero_right (r1 r2 : ℕ × ℕ) (h : r2.2 = 0) :
    disjointOrEqual r1 r2 := by
  right
  intro i hi
  rcases hi with ⟨_, hb1, hb2⟩
  omega

theorem disjointOrEqual_of_zero_left (r1 r2 : ℕ × ℕ) (h : r1.2 = 0) :
    disjointOrEqual r1 r2 :=
  disjointOrEqual_symm (disjointOrEqual_of_zero_right r2 r1 h)

theorem stacked_disjointOrEqual {rs : List (ℕ × ℕ)} (h : rangesStacked rs) :
    ∀ r1 ∈ rs, ∀ r2 ∈ rs, disjointOrEqual r1 r2 := by
  intro r1 h1 r2 h2
  by_cases he : r1 = r2
  · exact Or.inl he
  · have hp : List.Pairwise disjointOrEqual rs := by
      refine h.imp ?_
      intro a b hab
      right
      intro i hi
      rcases hi with ⟨⟨ha1, ha2⟩, hb1, hb2⟩
      omega
    exact hp.forall disjointOrEqual_symm h1 h2 he

/-- The bookkeeping invariant maintained by every bucket call: placed
glyph ranges lie inside the GlyphOffsetArray and are pairwise disjoint or
equal; recorded line ranges lie inside the LineVertexArray and are
stacked in order; every placed entry's line range is one of the recorded
results or empty. -/
def bucketInv (st : BucketArraysState) : Prop :=
  (∀ e ∈ allPlaced st,
    e.glyphStartIndex + e.numGlyphs ≤ st.glyphOffsetArray.length) ∧
  (∀ e1 ∈ allPlaced st, ∀ e2 ∈ allPlaced st,
    disjointOrEqual (glyphRange e1) (glyphRange e2)) ∧
  (∀ r ∈ st.lineRangeResults, r.1 + r.2 ≤ st.lineVertexArray.length) ∧
  rangesStacked st.lineRangeResults ∧
  (∀ e ∈ allPlaced st,
    lineRange e ∈ st.lineRangeResults ∨ e.lineLength = 0)

theorem bucketInv_initial : bucketInv initialBucketArrays := by
  refine ⟨?_, ?_, ?_, ?_, ?_⟩ <;>
    simp [initialBucketArrays, allPlaced, rangesStacked]

theorem bucketInv_extend (st ns : BucketArraysState) (entry : PlacedSymbol)
    (h : bucketInv st)
    (hmem : ∀ e, e ∈ allPlaced ns ↔ e ∈ allPlaced st ∨ e = entry)
    (hglen : ns.glyphOffsetArray.length
      = st.glyphOffsetArray.length + entry.numGlyphs)
    (hstart : entry.glyphStartIndex = st.glyphOffsetArray.length)
    (hline : ns.lineVertexArray = st.lineVertexArray)
    (hres : ns.lineRangeResults = st.lineRangeResults)
    (hlr : lineRange entry ∈ st.lineRangeResults ∨ entry.lineLength = 0) :
    bucketInv ns := by
  obtain ⟨hg1, hg2, hl1, hl2, hl3⟩ := h
  refine ⟨?_, ?_, ?_, ?_, ?_⟩
  · intro e he
    rcases (hmem e).mp he with hold | hnew
    · have := hg1 e hold
      omega
    · subst hnew
      omega
  · intro e1 he1 e2 he2
    rcases (hmem e1).mp he1 with h1 | h1 <;>
      rcases (hmem e2).mp he2 with h2 | h2
    · exact hg2 e1 h1 e2 h2
    · subst h2
      right
      intro i hi
      rcases hi with ⟨⟨a1, a2⟩, b1, b2⟩
      have := hg1 e1 h1
      simp only [glyphRange] at a1 a2 b1 b2
      omega
    · subst h1
      right
      intro i hi
      rcases hi with ⟨⟨a1, a2⟩, b1, b2⟩
      have := hg1 e2 h2
      simp only [glyphRange] at a1 a2 b1 b2
      omega
    · subst h1
      subst h2
      exact Or.inl rfl
  · intro r hr
    rw [hres] at hr
    rw [hline]
    exact hl1 r hr
  · rw [hres]
    exact hl2
  · intro e he
    rcases (hmem e).mp he with hold | hnew
    · rw [hres]
      exact hl3 e hold
    · subst hnew
      rw [hres]
      exact hlr

theorem bucketInv_step (d : Pt → Pt → ℚ) (zoom : ℚ) (st : BucketArraysState)
    (op : BucketOp) (h : bucketInv st) :
    bucketInv (runBucketOp d zoom st op) := by
  cases op with
  | addLine anchor line =>
      obtain ⟨hg1, hg2, hl1, hl2, hl3⟩ := h
      have hstart := addToLineVertexArray_start d st.lineVertexArray anchor
        line
      have htot := addToLineVertexArray_total_len d st.lineVertexArray anchor
        line
      refine ⟨?_, ?_, ?_, ?_, ?_⟩
      · intro e he
        exact hg1 e he
      · intro e1 he1 e2 he2
        exact hg2 e1 he1 e2 he2
      · intro r hr
        simp only [runBucketOp] at hr ⊢
        rcases List.mem_append.mp hr with hold | hnew
        · have := hl1 r hold
          omega
        · simp only [List.mem_singleton] at hnew
          subst hnew
          omega
      · simp only [runBucketOp, rangesStacked]
        refine List.pairwise_append.mpr ⟨hl2, List.pairwise_singleton _ _, ?_⟩
        intro a2 ha b hb
        simp only [List.mem_singleton] at hb
        subst hb
        have := hl1 a2 ha
        omega
      · intro e he
        simp only [runBucketOp]
        rcases hl3 e he with hm | hz
        · exact Or.inl (List.mem_append_left _ hm)
        · exact Or.inr hz
  | addSyms a =>
      by_cases ht : a.target = true
      · have hplaced := addSymbols_placed zoom st.textBuffers
          st.glyphOffsetArray a.quads a.sizeVertex a.lineOffset a.alongLine
          a.writingMode a.labelAnchor
          (st.lineRangeResults.getD a.lineRef (0, 0)).1
          (st.lineRangeResults.getD a.lineRef (0, 0)).2 st.placedGlyphArray
        have hglen := addSymbols_glyphOffsetArray_length zoom st.textBuffers
          st.glyphOffsetArray a.quads a.sizeVertex a.lineOffset a.alongLine
          a.writingMode a.labelAnchor
          (st.lineRangeResults.getD a.lineRef (0, 0)).1
          (st.lineRangeResults.getD a.lineRef (0, 0)).2 st.placedGlyphArray
        refine bucketInv_extend st _
          { anchorX := a.labelAnchor.x, anchorY := a.labelAnchor.y
            glyphStartIndex := st.glyphOffsetArray.length
            numGlyphs := a.quads.length
            lineStartIndex := (st.lineRangeResults.getD a.lineRef (0, 0)).1
            lineLength := (st.lineRangeResults.getD a.lineRef (0, 0)).2
            segment := a.labelAnchor.segment.getD 0
            lowerSize := (a.sizeVertex.map Prod.fst).getD 0
            upperSize := (a.sizeVertex.map Prod.snd).getD 0
            lineOffsetX := a.lineOffset.1, lineOffsetY := a.lineOffset.2
            placementZoom := zoom, writingMode := a.writingMode
            hidden := false } h ?_ ?_ rfl ?_ ?_ ?_
        · intro e
          simp only [runBucketOp, ht, if_true, allPlaced]
          rw [hplaced]
          simp only [List.mem_append, List.mem_singleton]
          tauto
        · simp only [runBucketOp, ht, if_true]
          rw [hglen]
        · simp only [runBucketOp, ht, if_true]
        · simp only [runBucketOp, ht, if_true]
        · by_cases href : a.lineRef < st.lineRangeResults.length
          · left
            have : lineRange
                { anchorX := a.labelAnchor.x, anchorY := a.labelAnchor.y
                  glyphStartIndex := st.glyphOffsetArray.length
                  numGlyphs := a.quads.length
                  lineStartIndex :=
                    (st.lineRangeResults.getD a.lineRef (0, 0)).1
                  lineLength := (st.lineRangeResults.getD a.lineRef (0, 0)).2
                  segment := a.labelAnchor.segment.getD 0
                  lowerSize := (a.sizeVertex.map Prod.fst).getD 0
                  upperSize := (a.sizeVertex.map Prod.snd).getD 0
                  lineOffsetX := a.lineOffset.1
                  lineOffsetY := a.lineOffset.2
                  placementZoom := zoom, writingMode := a.writingMode
                  hidden := false }
                = st.lineRangeResults.getD a.lineRef (0, 0) := rfl
            rw [this, List.getD_eq_getElem _ _ href]
            exact List.getElem_mem href
          · right
            simp only [List.getD_eq_default _ _ (by omega :
              st.lineRangeResults.length ≤ a.lineRef)]
      · have htf : a.target = false := by
          revert ht
          cases a.target <;> simp
        have hplaced := addSymbols_placed zoom st.iconBuffers
          st.glyphOffsetArray a.quads a.sizeVertex a.lineOffset a.alongLine
          a.writingMode a.labelAnchor
          (st.lineRangeResults.getD a.lineRef (0, 0)).1
          (st.lineRangeResults.getD a.lineRef (0, 0)).2 st.placedIconArray
        have hglen := addSymbols_glyphOffsetArray_length zoom st.iconBuffers
          st.glyphOffsetArray a.quads a.sizeVertex a.lineOffset a.alongLine
          a.writingMode a.labelAnchor
          (st.lineRangeResults.getD a.lineRef (0, 0)).1
          (st.lineRangeResults.getD a.lineRef (0, 0)).2 st.placedIconArray
        refine bucketInv_extend st _
          { anchorX := a.labelAnchor.x, anchorY := a.labelAnchor.y
            glyphStartIndex := st.glyphOffsetArray.length
            numGlyphs := a.quads.length
            lineStartIndex := (st.lineRangeResults.getD a.lineRef (0, 0)).1
            lineLength := (st.lineRangeResults.getD a.lineRef (0, 0)).2
            segment := a.labelAnchor.segment.getD 0
            lowerSize := (a.sizeVertex.map Prod.fst).getD 0
            upperSize := (a.sizeVertex.map Prod.snd).getD 0
            lineOffsetX := a.lineOffset.1, lineOffsetY := a.lineOffset.2
            placementZoom := zoom, writingMode := a.writingMode
            hidden := false } h ?_ ?_ rfl ?_ ?_ ?_
        · intro e
          simp only [runBucketOp, htf, Bool.false_eq_true, if_false,
            allPlaced]
          rw [hplaced]
          simp only [List.mem_append, List.mem_singleton]
          tauto
        · simp only [runBucketOp, htf, Bool.false_eq_true, if_false]
          rw [hglen]
        · simp only [runBucketOp, htf, Bool.false_eq_true, if_false]
        · simp only [runBucketOp, htf, Bool.false_eq_true, if_false]
        · by_cases href : a.lineRef < st.lineRangeResults.length
          · left
            have : lineRange
                { anchorX := a.labelAnchor.x, anchorY := a.labelAnchor.y
                  glyphStartIndex := st.glyphOffsetArray.length
                  numGlyphs := a.quads.length
                  lineStartIndex :=
                    (st.lineRangeResults.getD a.lineRef (0, 0)).1
                  lineLength := (st.lineRangeResults.getD a.lineRef (0, 0)).2
                  segment := a.labelAnchor.segment.getD 0
                  lowerSize := (a.sizeVertex.map Prod.fst).getD 0
                  upperSize := (a.sizeVertex.map Prod.snd).getD 0
                  lineOffsetX := a.lineOffset.1
                  lineOffsetY := a.lineOffset.2
                  placementZoom := zoom, writingMode := a.writingMode
                  hidden := false }
                = st.lineRangeResults.getD a.lineRef (0, 0) := rfl
            rw [this, List.getD_eq_getElem _ _ href]
            exact List.getElem_mem href
          · right
            simp only [List.getD_eq_default _ _ (by omega :
              st.lineRangeResults.length ≤ a.lineRef)]

theorem bucketInv_run (d : Pt → Pt → ℚ) (zoom : ℚ) (ops : List BucketOp) :
    bucketInv (runBucketOps d zoom ops) := by
  have hgen : ∀ st, bucketInv st →
      bucketInv (ops.foldl (runBucketOp d zoom) st) := by
    induction ops with
    | nil => intro st h; exact h
    | cons op rest ih =>
        intro st h
        exact ih _ (bucketInv_step d zoom st op h)
  exact hgen initialBucketArrays bucketInv_initial

/-- C6: across any sequence of addToLineVertexArray and addSymbols calls
on one freshly created bucket, the glyph-offset range and the line-vertex
range of every placed-symbol entry are disjoint from or exactly equal to
the corresponding range of every other entry; no partial overlaps. -/
theorem C6_ranges_disjoint_or_equal (d : Pt → Pt → ℚ) (zoom : ℚ)
    (ops : List BucketOp) :
    ∀ e1 ∈ allPlaced (runBucketOps d zoom ops),
      ∀ e2 ∈ allPlaced (runBucketOps d zoom ops),
        disjointOrEqual (glyphRange e1) (glyphRange e2) ∧
        disjointOrEqual (lineRange e1) (lineRange e2) := by
  obtain ⟨hg1, hg2, hl1, hl2, hl3⟩ := bucketInv_run d zoom ops
  intro e1 he1 e2 he2
  refine ⟨hg2 e1 he1 e2 he2, ?_⟩
  rcases hl3 e1 he1 with hm1 | hz1
  · rcases hl3 e2 he2 with hm2 | hz2
    · exact stacked_disjointOrEqual hl2 _ hm1 _ hm2
    · exact disjointOrEqual_of_zero_right _ _ hz2
  · exact disjointOrEqual_of_zero_left _ _ hz1

/-! ## Lemmas about populate -/

/-- The glyph codepoints one text value contributes to the dependency
set: the distinct codepoints of its characters, plus the vertical
punctuation substitutes that exist, when line-following placement and
vertical writing mode both allow. -/
def featureGlyphs (C : TextCollaborators) (textAlongLine : Bool)
    (text : String) : Finset ℕ :=
  (text.toList.map Char.toNat).toFinset ∪
    (if textAlongLine && C.allowsVerticalWritingMode text then
      (text.toList.filterMap
        (fun c => (C.verticalPunctuationLookup c).map Char.toNat)).toFinset
    else ∅)

/-- The glyph codepoints one retained feature contributes (none without a
truthy text). -/
def symbolFeatureGlyphs (C : TextCollaborators) (textAlongLine : Bool)
    (f : SymbolFeature) : Finset ℕ :=
  if jsTruthy f.text then featureGlyphs C textAlongLine (f.text.getD "")
  else ∅

/-- The glyph codepoints a feature list contributes. -/
def glyphUnion (C : TextCollaborators) (textAlongLine : Bool) :
    List SymbolFeature → Finset ℕ
  | [] => ∅
  | f :: rest =>
      symbolFeatureGlyphs C textAlongLine f ∪ glyphUnion C textAlongLine rest

theorem glyphFold_mem (C : TextCollaborators) (b : Bool) :
    ∀ (cs : List Char) (stack : Finset ℕ) (x : ℕ),
      (x ∈ cs.foldl (fun st c =>
        let st2 := insert c.toNat st
        if b then
          match C.verticalPunctuationLookup c with
          | some verticalChar => insert verticalChar.toNat st2
          | none => st2
        else st2) stack
      ↔ x ∈ stack ∨ x ∈ (cs.map Char.toNat).toFinset ∨
          (b = true ∧ x ∈ (cs.filterMap
            (fun c => (C.verticalPunctuationLookup c).map
              Char.toNat)).toFinset)) := by
  intro cs
  induction cs with
  | nil =>
      intro stack x
      simp
  | cons c rest ih =>
      intro stack x
      rw [List.foldl_cons, ih]
      simp only [List.map_cons, List.toFinset_cons, Finset.mem_insert,
        List.filterMap_cons]
      cases b with
      | false =>
          simp only [Bool.false_eq_true, if_false, false_and,
            Finset.mem_insert]
          itauto
      | true =>
          simp only [if_true, true_and]
          cases hv : C.verticalPunctuationLookup c with
          | none =>
              simp only [hv, Option.map_none', Finset.mem_insert]
              itauto
          | some vc =>
              simp only [hv, Option.map_some', List.toFinset_cons,
                Finset.mem_insert]
              itauto

theorem collectGlyphs_eq (C : TextCollaborators) (textAlongLine : Bool)
    (text : String) (stack : Finset ℕ) :
    collectGlyphs C textAlongLine text stack
      = stack ∪ featureGlyphs C textAlongLine text := by
  ext x
  simp only [collectGlyphs]
  rw [glyphFold_mem C (textAlongLine && C.allowsVerticalWritingMode text)
    text.toList stack x]
  simp only [featureGlyphs, Finset.mem_union]
  cases htal : textAlongLine && C.allowsVerticalWritingMode text with
  | false => simp [htal]
  | true => simp [htal]

/-- The feature populate retains for one input feature, if any. -/
def retainedFeature (C : TextCollaborators) (layer : StyleLayerModel)
    (hasText hasIcon : Bool) (ixf : IndexedFeature) : Option SymbolFeature :=
  if !layer.filter ixf.feature then none
  else
    let text : Option String := evalText C layer hasText ixf.feature
    let icon : Option String := evalIcon C layer hasIcon ixf.feature
    if !jsTruthy text && !jsTruthy icon then none
    else some
      { text := text, icon := icon, index := ixf.index
        sourceLayerIndex := ixf.sourceLayerIndex
        geometry := loadGeometry ixf.feature
        properties := ixf.feature.properties
        featureType := vectorTileFeatureTypes.getD
          ixf.feature.featureType "Unknown"
        id := ixf.feature.id }

theorem retainedFeature_truthy (C : TextCollaborators)
    (layer : StyleLayerModel) (hasText hasIcon : Bool)
    (ixf : IndexedFeature) (sf : SymbolFeature)
    (h : retainedFeature C layer hasText hasIcon ixf = some sf) :
    jsTruthy sf.text = true ∨ jsTruthy sf.icon = true := by
  unfold retainedFeature at h
  by_cases hfil : (!layer.filter ixf.feature) = true
  · simp [hfil] at h
  · rw [if_neg hfil] at h
    by_cases htr : (!jsTruthy (evalText C layer hasText ixf.feature)
        && !jsTruthy (evalIcon C layer hasIcon ixf.feature)) = true
    · simp [htr] at h
    · rw [if_neg htr] at h
      simp only [Option.some.injEq] at h
      subst h
      cases he : jsTruthy (evalText C layer hasText ixf.feature) with
      | true => exact Or.inl rfl
      | false =>
          cases hi : jsTruthy (evalIcon C layer hasIcon ixf.feature) with
          | true => exact Or.inr rfl
          | false => exact absurd (by simp [he, hi]) htr

theorem populateStep_eq (C : TextCollaborators) (layer : StyleLayerModel)
    (hasText hasIcon : Bool)
    (acc : List SymbolFeature × Finset String × Finset ℕ)
    (ixf : IndexedFeature) :
    populateStep C layer hasText hasIcon acc ixf
      = match retainedFeature C layer hasText hasIcon ixf with
        | none => acc
        | some sf =>
            (acc.1 ++ [sf],
             if jsTruthy sf.icon then insert (sf.icon.getD "") acc.2.1
               else acc.2.1,
             if jsTruthy sf.text then
               acc.2.2 ∪ featureGlyphs C
                 (layer.textRotationAlignmentMap && layer.symbolPlacementLine)
                 (sf.text.getD "")
             else acc.2.2) := by
  unfold populateStep retainedFeature
  by_cases hfil : (!layer.filter ixf.feature) = true
  · simp [hfil]
  · rw [if_neg hfil, if_neg hfil]
    by_cases htr : (!jsTruthy (evalText C layer hasText ixf.feature)
        && !jsTruthy (evalIcon C layer hasIcon ixf.feature)) = true
    · simp [htr]
    · rw [if_neg htr, if_neg htr]
      simp only [collectGlyphs_eq]

theorem populateFold_spec (C : TextCollaborators) (layer : StyleLayerModel)
    (hasText hasIcon : Bool) :
    ∀ (features : List IndexedFeature) (feats0 : List SymbolFeature)
      (icons : Finset String) (stack : Finset ℕ),
      ((features.foldl (populateStep C layer hasText hasIcon)
          (feats0, icons, stack)).1
        = feats0 ++ features.filterMap
            (retainedFeature C layer hasText hasIcon)) ∧
      ((features.foldl (populateStep C layer hasText hasIcon)
          (feats0, icons, stack)).2.2
        = stack ∪ glyphUnion C
            (layer.textRotationAlignmentMap && layer.symbolPlacementLine)
            (features.filterMap (retainedFeature C layer hasText hasIcon))) := by
  intro features
  induction features with
  | nil =>
      intro feats0 icons stack
      simp [glyphUnion]
  | cons ixf rest ih =>
      intro feats0 icons stack
      rw [List.foldl_cons, populateStep_eq]
      cases hre : retainedFeature C layer hasText hasIcon ixf with
      | none =>
          simp only [List.filterMap_cons, hre]
          exact ih feats0 icons stack
      | some sf =>
          simp only [List.filterMap_cons, hre]
          obtain ⟨ih1, ih2⟩ := ih (feats0 ++ [sf])
            (if jsTruthy sf.icon then insert (sf.icon.getD "") icons
              else icons)
            (if jsTruthy sf.text then
              stack ∪ featureGlyphs C
                (layer.textRotationAlignmentMap && layer.symbolPlacementLine)
                (sf.text.getD "")
            else stack)
          constructor
          · rw [ih1]
            simp
          · rw [ih2]
            simp only [glyphUnion, symbolFeatureGlyphs]
            cases htr : jsTruthy sf.text with
            | false => simp
            | true => simp [Finset.union_assoc]

theorem mergeLines_textIcon :
    ∀ l, ∀ f ∈ mergeLines l, ∃ g ∈ l, f.text = g.text ∧ f.icon = g.icon := by
  intro l
  induction l using mergeLines.induct with
  | case1 =>
      simp [mergeLines]
  | case2 f =>
      simp [mergeLines]
  | case3 f g rest hcond ih =>
      intro f2 hf2
      rw [mergeLines, if_pos hcond] at hf2
      obtain ⟨g2, hg2, ht, hi⟩ := ih f2 hf2
      rcases List.mem_cons.mp hg2 with he | hmem
      · subst he
        exact ⟨f, List.mem_cons_self _ _, ht, hi⟩
      · exact ⟨g2, List.mem_cons_of_mem _ (List.mem_cons_of_mem _ hmem),
          ht, hi⟩
  | case4 f g rest hcond ih =>
      intro f2 hf2
      rw [mergeLines, if_neg hcond] at hf2
      rcases List.mem_cons.mp hf2 with he | hmem
      · subst he
        exact ⟨f2, List.mem_cons_self _ _, rfl, rfl⟩
      · obtain ⟨g2, hg2, ht, hi⟩ := ih f2 hmem
        exact ⟨g2, List.mem_cons_of_mem _ hg2, ht, hi⟩

theorem mergeLines_glyphUnion (C : TextCollaborators) (textAlongLine : Bool) :
    ∀ l, glyphUnion C textAlongLine (mergeLines l)
      = glyphUnion C textAlongLine l := by
  intro l
  induction l using mergeLines.induct with
  | case1 => simp [mergeLines]
  | case2 f => simp [mergeLines]
  | case3 f g rest hcond ih =>
      rw [mergeLines, if_pos hcond, ih]
      simp only [glyphUnion]
      have hfg : symbolFeatureGlyphs C textAlongLine
          { f with geometry := f.geometry ++ g.geometry }
          = symbolFeatureGlyphs C textAlongLine f := rfl
      have hgf : symbolFeatureGlyphs C textAlongLine g
          = symbolFeatureGlyphs C textAlongLine f := by
        simp only [Bool.and_eq_true, beq_iff_eq, decide_eq_true_eq] at hcond
        simp only [symbolFeatureGlyphs, ← hcond.1.1]
      rw [hfg, hgf, ← Finset.union_assoc, Finset.union_self]
  | case4 f g rest hcond ih =>
      rw [mergeLines, if_neg hcond]
      simp only [glyphUnion, ih]

/-- C7: every feature retained by populate has a truthy text or icon
(features where both evaluate empty are dropped), and a layer with
neither text nor icon yields an empty feature list with no mutation of
either dependency set. -/
theorem C7_populate_retained_truthy (C : TextCollaborators)
    (layer : StyleLayerModel) (features : List IndexedFeature)
    (icons0 : Finset String) (glyphs0 : Option String → Finset ℕ) :
    (∀ f ∈ (populate C layer features icons0 glyphs0).features,
      jsTruthy f.text = true ∨ jsTruthy f.icon = true) ∧
    (hasTextB layer = false → hasIconB layer = false →
      populate C layer features icons0 glyphs0
        = { features := [], iconDependencies := icons0
            glyphDependencies := glyphs0 }) := by
  constructor
  · intro f hf
    unfold populate at hf
    by_cases hcond : (!hasTextB layer && !hasIconB layer) = true
    · rw [if_pos hcond] at hf
      simp at hf
    · rw [if_neg hcond] at hf
      dsimp only at hf
      have hcollected : ∀ g ∈ (features.foldl
          (populateStep C layer (hasTextB layer) (hasIconB layer))
          ([], icons0, glyphs0 layer.textFont)).1,
          jsTruthy g.text = true ∨ jsTruthy g.icon = true := by
        intro g hg
        rw [(populateFold_spec C layer (hasTextB layer) (hasIconB layer)
          features [] icons0 (glyphs0 layer.textFont)).1] at hg
        simp only [List.nil_append] at hg
        obtain ⟨ixf, hixf, hre⟩ := List.mem_filterMap.mp hg
        exact retainedFeature_truthy C layer _ _ ixf g hre
      by_cases hpl : layer.symbolPlacementLine = true
      · rw [if_pos hpl] at hf
        obtain ⟨g, hg, ht, hi⟩ := mergeLines_textIcon _ f hf
        rw [ht, hi]
        exact hcollected g hg
      · rw [if_neg hpl] at hf
        exact hcollected f hf
  · intro h1 h2
    simp [populate, h1, h2]

/-- The external text collaborators used in witnesses: identity token
resolution and transform, no vertical writing, no substitutions. -/
def witCollab : TextCollaborators :=
  { resolveTokens := fun _ s => s
    transformText := fun s _ => s
    allowsVerticalWritingMode := fun _ => false
    verticalPunctuationLookup := fun _ => none }

/-- A style layer with neither text nor icon configured. -/
def witNoLabelLayer : StyleLayerModel :=
  { filter := fun _ => true
    textField := { featureConstant := true, constantValue := ""
                   evaluate := fun _ => "" }
    iconImage := { featureConstant := true, constantValue := ""
                   evaluate := fun _ => "" }
    textFont := some "Arial Unicode MS Regular"
    textRotationAlignmentMap := false
    symbolPlacementLine := false }

/-- A concrete input feature for populate witnesses. -/
def witFeature : TileFeature :=
  { properties := [], id := none, featureType := 1
    geometry := [[⟨0, 0⟩]] }

/-- C7 witness: a layer with neither text nor icon leaves a concrete
feature list empty and both dependency sets untouched. -/
theorem C7_populate_retained_truthy_witness :
    populate witCollab witNoLabelLayer [⟨witFeature, 0, 0⟩] ∅ (fun _ => ∅)
      = { features := [], iconDependencies := ∅
          glyphDependencies := fun _ => ∅ } :=
  (C7_populate_retained_truthy witCollab witNoLabelLayer
    [⟨witFeature, 0, 0⟩] ∅ (fun _ => ∅)).2 rfl rfl

/-- C8: after populate, the glyph dependency set of the active font
stack is exactly its prior contents plus the distinct codepoints of all
retained text values, with vertical punctuation substitutes exactly when
line-following placement and vertical writing allow; entries of other
font stacks are untouched. -/
theorem C8_glyph_dependency_set (C : TextCollaborators)
    (layer : StyleLayerModel) (features : List IndexedFeature)
    (icons0 : Finset String) (glyphs0 : Option String → Finset ℕ) :
    ((populate C layer features icons0 glyphs0).glyphDependencies
        layer.textFont
      = glyphs0 layer.textFont ∪
        glyphUnion C
          (layer.textRotationAlignmentMap && layer.symbolPlacementLine)
          (populate C layer features icons0 glyphs0).features) ∧
    (∀ k, k ≠ layer.textFont →
      (populate C layer features icons0 glyphs0).glyphDependencies k
        = glyphs0 k) := by
  by_cases hcond : (!hasTextB layer && !hasIconB layer) = true
  · constructor
    · simp [populate, hcond, glyphUnion]
    · intro k hk
      simp [populate, hcond]
  · have hfold := populateFold_spec C layer (hasTextB layer)
      (hasIconB layer) features [] icons0 (glyphs0 layer.textFont)
    constructor
    · simp only [populate, if_neg hcond]
      rw [Function.update_same, hfold.2, hfold.1]
      simp only [List.nil_append]
      by_cases hpl : layer.symbolPlacementLine = true
      · rw [if_pos hpl, mergeLines_glyphUnion]
      · rw [if_neg hpl]
    · intro k hk
      simp only [populate, if_neg hcond]
      rw [Function.update_noteq hk]

/-- A style layer with a constant text field "AB" and font stack F. -/
def witTextLayer : StyleLayerModel :=
  { filter := fun _ => true
    textField := { featureConstant := true, constantValue := "AB"
                   evaluate := fun _ => "AB" }
    iconImage := { featureConstant := true, constantValue := ""
                   evaluate := fun _ => "" }
    textFont := some "F"
    textRotationAlignmentMap := false
    symbolPlacementLine := false }

/-- C8 witness: the dependency-set characterization applied at a
concrete layer with text "AB", and the entry of a different font-stack
key left untouched. -/
theorem C8_glyph_dependency_set_witness :
    ((populate witCollab witTextLayer [⟨witFeature, 0, 0⟩] ∅
        (fun _ => ∅)).glyphDependencies witTextLayer.textFont
      = (fun _ : Option String => (∅ : Finset ℕ)) witTextLayer.textFont ∪
        glyphUnion witCollab
          (witTextLayer.textRotationAlignmentMap &&
            witTextLayer.symbolPlacementLine)
          (populate witCollab witTextLayer [⟨witFeature, 0, 0⟩] ∅
            (fun _ => ∅)).features) ∧
    (populate witCollab witTextLayer [⟨witFeature, 0, 0⟩] ∅
        (fun _ => ∅)).glyphDependencies none
      = (fun _ : Option String => (∅ : Finset ℕ)) none :=
  ⟨(C8_glyph_dependency_set witCollab witTextLayer [⟨witFeature, 0, 0⟩] ∅
      (fun _ => ∅)).1,
   (C8_glyph_dependency_set witCollab witTextLayer [⟨witFeature, 0, 0⟩] ∅
      (fun _ => ∅)).2 none (by simp [witTextLayer])⟩

/-! ## Lemmas about collision-record flattening -/

theorem deserializeBoxesGo_none (arr : List CollisionBox) :
    ∀ ks, (∃ k ∈ ks, (arr.getD k default).radius ≠ 0) →
      deserializeBoxesGo arr ks = none := by
  intro ks
  induction ks with
  | nil =>
      intro h
      simp at h
  | cons k rest ih =>
      intro h
      obtain ⟨k2, hk2, hr⟩ := h
      rw [deserializeBoxesGo]
      by_cases hk : (arr.getD k default).radius ≠ 0
      · rw [if_pos hk]
      · rw [if_neg hk]
        rcases List.mem_cons.mp hk2 with he | hmem
        · subst he
          exact absurd hr hk
        · rw [ih ⟨k2, hmem, hr⟩]
          rfl

theorem deserializeBoxesGo_some (arr : List CollisionBox) :
    ∀ ks, (∀ k ∈ ks, (arr.getD k default).radius = 0) →
      deserializeBoxesGo arr ks = some (ks.flatMap (fun k =>
        [(arr.getD k default).x1, (arr.getD k default).y1,
         (arr.getD k default).x2, (arr.getD k default).y2,
         (arr.getD k default).anchorPointX,
         (arr.getD k default).anchorPointY])) := by
  intro ks
  induction ks with
  | nil =>
      intro _
      rfl
  | cons k rest ih =>
      intro h
      rw [deserializeBoxesGo,
        if_neg (by simpa using h k (List.mem_cons_self _ _)),
        ih (fun k2 hk2 => h k2 (List.mem_cons_of_mem _ hk2))]
      rfl

theorem deserializeCirclesGo_none (arr : List CollisionBox) :
    ∀ ks, (∃ k ∈ ks, (arr.getD k default).radius = 0) →
      deserializeCirclesGo arr ks = none := by
  intro ks
  induction ks with
  | nil =>
      intro h
      simp at h
  | cons k rest ih =>
      intro h
      obtain ⟨k2, hk2, hr⟩ := h
      rw [deserializeCirclesGo]
      by_cases hk : (arr.getD k default).radius = 0
      · rw [if_pos hk]
      · rw [if_neg hk]
        rcases List.mem_cons.mp hk2 with he | hmem
        · subst he
          exact absurd hr hk
        · rw [ih ⟨k2, hmem, hr⟩]
          rfl

theorem deserializeCirclesGo_some (arr : List CollisionBox) :
    ∀ ks, (∀ k ∈ ks, (arr.getD k default).radius ≠ 0) →
      deserializeCirclesGo arr ks = some (ks.flatMap (fun k =>
        [CollisionValue.num (arr.getD k default).anchorPointX,
         CollisionValue.num (arr.getD k default).anchorPointY,
         CollisionValue.num (arr.getD k default).radius,
         CollisionValue.num (arr.getD k default).distanceToAnchor,
         CollisionValue.flag false])) := by
  intro ks
  induction ks with
  | nil =>
      intro _
      rfl
  | cons k rest ih =>
      intro h
      rw [deserializeCirclesGo,
        if_neg (h k (List.mem_cons_self _ _)),
        ih (fun k2 hk2 => h k2 (List.mem_cons_of_mem _ hk2))]
      rfl

/-- C9: the flattening routines return a defensive empty list on a
record-kind mismatch anywhere in the scanned range, and otherwise return
6 values (x1, y1, x2, y2, anchor x, anchor y) per box record and
5 values (anchor x, anchor y, radius, distance to anchor, false) per
circle record. -/
theorem C9_collision_flattening (arr : List CollisionBox) (s e : ℕ) :
    ((∃ k, s ≤ k ∧ k < e ∧ (arr.getD k default).radius ≠ 0) →
      deserializeCollisionBoxes arr s e = []) ∧
    ((∀ k, s ≤ k → k < e → (arr.getD k default).radius = 0) →
      deserializeCollisionBoxes arr s e
        = (List.range' s (e - s)).flatMap (fun k =>
            [(arr.getD k default).x1, (arr.getD k default).y1,
             (arr.getD k default).x2, (arr.getD k default).y2,
             (arr.getD k default).anchorPointX,
             (arr.getD k default).anchorPointY])) ∧
    ((∃ k, s ≤ k ∧ k < e ∧ (arr.getD k default).radius = 0) →
      deserializeCollisionCircles arr s e = []) ∧
    ((∀ k, s ≤ k → k < e → (arr.getD k default).radius ≠ 0) →
      deserializeCollisionCircles arr s e
        = (List.range' s (e - s)).flatMap (fun k =>
            [CollisionValue.num (arr.getD k default).anchorPointX,
             CollisionValue.num (arr.getD k default).anchorPointY,
             CollisionValue.num (arr.getD k default).radius,
             CollisionValue.num (arr.getD k default).distanceToAnchor,
             CollisionValue.flag false])) := by
  refine ⟨?_, ?_, ?_, ?_⟩
  · intro ⟨k, hk1, hk2, hr⟩
    rw [deserializeCollisionBoxes, deserializeBoxesGo_none arr _
      ⟨k, List.mem_range'_1.mpr ⟨hk1, by omega⟩, hr⟩]
    rfl
  · intro h
    rw [deserializeCollisionBoxes, deserializeBoxesGo_some arr _
      (fun k hk => by
        have h12 := List.mem_range'_1.mp hk
        exact h k h12.1 (by omega))]
    rfl
  · intro ⟨k, hk1, hk2, hr⟩
    rw [deserializeCollisionCircles, deserializeCirclesGo_none arr _
      ⟨k, List.mem_range'_1.mpr ⟨hk1, by omega⟩, hr⟩]
    rfl
  · intro h
    rw [deserializeCollisionCircles, deserializeCirclesGo_some arr _
      (fun k hk => by
        have h12 := List.mem_range'_1.mp hk
        exact h k h12.1 (by omega))]
    rfl

/-- A box-kind collision record (radius 0) for witnesses. -/
def witBoxRecord : CollisionBox := ⟨1, 2, 3, 4, 5, 6, 0, 0⟩

/-- A circle-kind collision record (radius 2) for witnesses. -/
def witCircleRecord : CollisionBox := ⟨0, 0, 0, 0, 7, 8, 2, 9⟩

/-- C9 witness: the flattening characterization applied to concrete
box-kind and circle-kind record arrays, in both the mismatched and the
matching direction. -/
theorem C9_collision_flattening_witness :
    deserializeCollisionBoxes [witCircleRecord] 0 1 = [] ∧
    deserializeCollisionCircles [witBoxRecord, witBoxRecord] 0 2 = [] ∧
    deserializeCollisionBoxes [witBoxRecord, witBoxRecord] 0 2
      = (List.range' 0 (2 - 0)).flatMap (fun k =>
          [([witBoxRecord, witBoxRecord].getD k default).x1,
           ([witBoxRecord, witBoxRecord].getD k default).y1,
           ([witBoxRecord, witBoxRecord].getD k default).x2,
           ([witBoxRecord, witBoxRecord].getD k default).y2,
           ([witBoxRecord, witBoxRecord].getD k default).anchorPointX,
           ([witBoxRecord, witBoxRecord].getD k default).anchorPointY]) ∧
    deserializeCollisionCircles [witCircleRecord] 0 1
      = (List.range' 0 (1 - 0)).flatMap (fun k =>
          [CollisionValue.num
            ([witCircleRecord].getD k default).anchorPointX,
           CollisionValue.num
            ([witCircleRecord].getD k default).anchorPointY,
           CollisionValue.num ([witCircleRecord].getD k default).radius,
           CollisionValue.num
            ([witCircleRecord].getD k default).distanceToAnchor,
           CollisionValue.flag false]) :=
  ⟨(C9_collision_flattening [witCircleRecord] 0 1).1
      ⟨0, by omega, by omega, by norm_num [witCircleRecord]⟩,
   (C9_collision_flattening [witBoxRecord, witBoxRecord] 0 2).2.2.1
      ⟨0, by omega, by omega, by norm_num [witBoxRecord]⟩,
   (C9_collision_flattening [witBoxRecord, witBoxRecord] 0 2).2.1
      (by
        intro k _ hk
        interval_cases k <;> rfl),
   (C9_collision_flattening [witCircleRecord] 0 1).2.2.2
      (by
        intro k _ hk
        interval_cases k
        norm_num [witCircleRecord])⟩

/-- C10: for a collision record with strictly negative radius the three
consumers disagree on its kind: generateCollisionDebugBuffers treats it
as a rectangular box (its test is radius > 0) and emits 4 vertices with
4 line-edge primitives into the collisionBox target, leaving the
collisionCircle target untouched; deserializeCollisionBoxes on a range
containing it returns the empty list (its test is radius != 0); and
deserializeCollisionCircles on a range of only such records returns a
non-empty 5-value list (its test is radius == 0). -/
theorem C10_negative_radius_disagreement (b : CollisionBox) (a : Anchor)
    (hneg : b.radius < 0) :
    ((generateCollisionDebugBuffers [b] [⟨0, 1, 0, 0, a⟩]
        (emptyBuffers CollisionDebugVertex,
         emptyBuffers CollisionDebugVertex)).1.indexArray
      = [[0, 1], [1, 2], [2, 3], [3, 0]]) ∧
    ((generateCollisionDebugBuffers [b] [⟨0, 1, 0, 0, a⟩]
        (emptyBuffers CollisionDebugVertex,
         emptyBuffers CollisionDebugVertex)).1.layoutVertexArray.length
      = 4) ∧
    ((generateCollisionDebugBuffers [b] [⟨0, 1, 0, 0, a⟩]
        (emptyBuffers CollisionDebugVertex,
         emptyBuffers CollisionDebugVertex)).2
      = emptyBuffers CollisionDebugVertex) ∧
    (deserializeCollisionBoxes [b] 0 1 = []) ∧
    (deserializeCollisionCircles [b] 0 1
      = [CollisionValue.num b.anchorPointX,
         CollisionValue.num b.anchorPointY,
         CollisionValue.num b.radius,
         CollisionValue.num b.distanceToAnchor,
         CollisionValue.flag false]) := by
  have hnotpos : ¬ b.radius > 0 := not_lt.mpr (le_of_lt hneg)
  have hne : b.radius ≠ 0 := ne_of_lt hneg
  refine ⟨?_, ?_, ?_, ?_, ?_⟩
  · norm_num [generateCollisionDebugBuffers, List.range', hnotpos,
      addCollisionDebugVertices, addCollisionDebugVertex, prepareSegment,
      currentSegment, emptyBuffers, updateLastSegment]
  · norm_num [generateCollisionDebugBuffers, List.range', hnotpos,
      addCollisionDebugVertices, addCollisionDebugVertex, prepareSegment,
      currentSegment, emptyBuffers, updateLastSegment]
  · norm_num [generateCollisionDebugBuffers, List.range', hnotpos,
      addCollisionDebugVertices, addCollisionDebugVertex, prepareSegment,
      currentSegment, emptyBuffers, updateLastSegment]
  · simp [deserializeCollisionBoxes, deserializeBoxesGo, List.range', hne]
  · simp [deserializeCollisionCircles, deserializeCirclesGo, List.range',
      hne]

/-- A concrete negative-radius collision record. -/
def witNegBox : CollisionBox := ⟨1, 2, 3, 4, 5, 6, -1, 7⟩

/-- C10 witness: the disagreement at the concrete record with
radius -1. -/
theorem C10_negative_radius_disagreement_witness :
    ((generateCollisionDebugBuffers [witNegBox] [⟨0, 1, 0, 0, ⟨0, 0, none⟩⟩]
        (emptyBuffers CollisionDebugVertex,
         emptyBuffers CollisionDebugVertex)).1.indexArray
      = [[0, 1], [1, 2], [2, 3], [3, 0]]) ∧
    ((generateCollisionDebugBuffers [witNegBox] [⟨0, 1, 0, 0, ⟨0, 0, none⟩⟩]
        (emptyBuffers CollisionDebugVertex,
         emptyBuffers CollisionDebugVertex)).1.layoutVertexArray.length
      = 4) ∧
    ((generateCollisionDebugBuffers [witNegBox] [⟨0, 1, 0, 0, ⟨0, 0, none⟩⟩]
        (emptyBuffers CollisionDebugVertex,
         emptyBuffers CollisionDebugVertex)).2
      = emptyBuffers CollisionDebugVertex) ∧
    (deserializeCollisionBoxes [witNegBox] 0 1 = []) ∧
    (deserializeCollisionCircles [witNegBox] 0 1
      = [CollisionValue.num witNegBox.anchorPointX,
         CollisionValue.num witNegBox.anchorPointY,
         CollisionValue.num witNegBox.radius,
         CollisionValue.num witNegBox.distanceToAnchor,
         CollisionValue.flag false]) :=
  C10_negative_radius_disagreement witNegBox ⟨0, 0, none⟩
    (by norm_num [witNegBox])

/-- The call sequence used to witness the range-disjointness theorem. -/
def witOps : List BucketOp :=
  [BucketOp.addSyms
    { target := true, quads := [], sizeVertex := none, lineOffset := (0, 0)
      alongLine := false, writingMode := 0, labelAnchor := ⟨0, 0, none⟩
      lineRef := 0 }]

/-- The placed entry the witness call sequence produces. -/
def witPlacedEntry : PlacedSymbol :=
  { anchorX := 0, anchorY := 0, glyphStartIndex := 0, numGlyphs := 0
    lineStartIndex := 0, lineLength := 0, segment := 0
    lowerSize := 0, upperSize := 0, lineOffsetX := 0, lineOffsetY := 0
    placementZoom := 5, writingMode := 0, hidden := false }

/-- C6 witness: the disjoint-or-equal property at the concrete entry of
a concrete call sequence. -/
theorem C6_ranges_disjoint_or_equal_witness :
    disjointOrEqual (glyphRange witPlacedEntry) (glyphRange witPlacedEntry) ∧
    disjointOrEqual (lineRange witPlacedEntry) (lineRange witPlacedEntry) :=
  C6_ranges_disjoint_or_equal witDist 5 witOps witPlacedEntry
    (by
      rw [show allPlaced (runBucketOps witDist 5 witOps)
        = [witPlacedEntry] from rfl]
      exact List.mem_cons_self _ _)
    witPlacedEntry
    (by
      rw [show allPlaced (runBucketOps witDist 5 witOps)
        = [witPlacedEntry] from rfl]
      exact List.mem_cons_self _ _)
